import Mathlib

/-!
# Market authentication service (sealing_market/market_auth/auth.go)

A shallow embedding of the token service of the sealing market: the token
file behind an open handle, the three HTTP operations (Register, Verify,
Refresh), the request decorator AccessToken, the polling loop PollRefresh
and Close.

Conventions of the embedding.

* A Go string is a Lean `String`; every token the service ever holds comes
  out of `json.Unmarshal`, which only produces valid UTF-8.
* A `time.Time` is its instant, in nanoseconds since the Unix epoch; a
  `time.Duration` is an integer in the signed 64-bit range, and arithmetic
  on durations wraps modulo 2^64 as in Go.
* The operating system, the network and the clock are inputs: every
  operation takes the outcome of each call it makes to them.
* The Go libraries the package calls (encoding/json, URL parsing) are a
  parameter `Lib`; theorems hold for every `Lib`.
* The mutex is not modelled: operations are run one at a time.
-/

namespace MarketAuth

/-! ## Time -/

/-- Two's complement wrap-around of an integer into the int64 range. -/
def wrap64 (x : Int) : Int := (x + 2 ^ 63) % 2 ^ 64 - 2 ^ 63

def minDuration : Int := -(2 ^ 63)
def maxDuration : Int := 2 ^ 63 - 1

/-- Saturation into the int64 range, as done by `Time.Sub` and `time.Until`. -/
def saturate64 (x : Int) : Int :=
  if x < minDuration then minDuration else if maxDuration < x then maxDuration else x

def Second : Int := 1000000000
def Minute : Int := 60 * Second

/-- Line 25: `pollTime = 10 * time.Minute`. -/
def pollTime : Int := wrap64 (10 * Minute)

/-- Line 26: `refreshThreshold = 30 * time.Minute`. -/
def refreshThreshold : Int := wrap64 (30 * Minute)

/-- The zero `time.Time`: January 1, year 1, 00:00:00 UTC. -/
def zeroTime : Int := -62135596800 * 1000000000

/-- The call `time.Until(t)` when the clock reads `now`. -/
def timeUntil (now t : Int) : Int := saturate64 (t - now)

/-- The call `t.Add(d)`. -/
def timeAdd (t d : Int) : Int := t + d

/-! ## Data -/

abbrev Bytes := List UInt8

/-- Lines 29-33. `TTL` is a Go `int`: 64 bits wide on the platforms lotus builds for. -/
structure TokensResponse where
  Access : String
  Refresh : String
  TTL : Int
  deriving DecidableEq, Repr

/-- Lines 35-39. -/
structure Tokens where
  Access : String
  Refresh : String
  /-- The instant of expiry, in nanoseconds since the Unix epoch. -/
  Expires : Int
  deriving DecidableEq, Repr

/-- The zero value `Tokens{}`. -/
def Tokens.zero : Tokens := { Access := "", Refresh := "", Expires := zeroTime }

/-- Errors returned by the package: the sentinel of line 24 and one
constructor for each `fmt.Errorf` site (the wrapped cause is not kept). -/
inductive Err where
  | ValidationError
  | userHomeDir
  | workingDirDoesNotExist (dir : String)
  | openTokensFile
  | tokenFileStat
  | readTokensFile
  | seekToStart
  | unmarshalTokens
  | postingOtp
  | createVerifyRequest
  | createRefreshRequest
  | getVerify
  | invalidResponseCode (code : Int)
  | readResponseBody
  | marshalTokens
  | truncateTokensFile
  | writeTokens
  | shortWriteTokens
  deriving DecidableEq, Repr

/-! ## The token file behind its handle -/

/-- An open `*os.File`: the contents of the file and the offset of the handle. -/
structure File where
  data : Bytes
  pos : Nat
  deriving DecidableEq, Repr

/-- The call `f.Truncate(0)`: on success the file is empty; the offset of the
handle does not move. A failed call changes nothing. -/
def File.Truncate0 (f : File) (ok : Bool) : File :=
  if ok then { data := [], pos := f.pos } else f

/-- Writing `b` at offset `pos` into `data`; a gap between the end of the
file and the offset reads as zero bytes. -/
def writeAt (data : Bytes) (pos : Nat) (b : Bytes) : Bytes :=
  match b with
  | [] => data
  | _ :: _ =>
    (data ++ List.replicate (pos - data.length) 0).take pos ++ b ++ data.drop (pos + b.length)

/-- The call `f.Write(b)` when the system accepts `n` bytes: they go to the
current offset, which advances by the number written. -/
def File.Write (f : File) (b : Bytes) (n : Nat) : File :=
  let w := b.take n
  { data := writeAt f.data f.pos w, pos := f.pos + w.length }

/-! ## HTTP -/

/-- An `http.Header`: keys with their values, in the order they were added. -/
abbrev Header := List (String × List String)

/-- The call `h.Add(key, value)`: appends to the values of the key. -/
def Header.Add : Header → String → String → Header
  | [], key, value => [(key, [value])]
  | (k, vs) :: rest, key, value =>
    if k = key then (k, vs ++ [value]) :: rest else (k, vs) :: Header.Add rest key value

/-- The values of `h[key]`. -/
def Header.Values : Header → String → List String
  | [], _ => []
  | (k, vs) :: rest, key => if k = key then vs else Header.Values rest key

structure Request where
  Method : String
  URL : String
  Header : Header
  deriving DecidableEq, Repr

/-- A response: the status code and what `io.ReadAll(resp.Body)` gives
(`none` for a read error). -/
structure Response where
  StatusCode : Int
  Body : Option Bytes
  deriving DecidableEq, Repr

/-- The Go libraries the package relies on. -/
structure Lib where
  /-- The call `json.Marshal` on a `Tokens`. -/
  Marshal : Tokens → Option Bytes
  /-- The call `json.Unmarshal` into a zero `Tokens`. -/
  UnmarshalTokens : Bytes → Option Tokens
  /-- The call `json.Unmarshal` into a zero `TokensResponse`. -/
  UnmarshalResponse : Bytes → Option TokensResponse
  /-- Whether `http.NewRequest` accepts the URL. -/
  validURL : String → Bool

/-- What one operation observes of the outside world. -/
structure Env where
  /-- The network: the response to a request, `none` for a transport error. -/
  send : Request → Option Response
  /-- The reading of `time.Now()` in `processTokenResponse`. -/
  now : Int
  /-- Whether `f.Truncate(0)` succeeds. -/
  truncateOk : Bool
  /-- How many bytes `f.Write` accepts. -/
  written : Nat
  /-- Whether `f.Write` reports an error. -/
  writeErr : Bool

/-! ## The service -/

/-- The state of a Go channel that carries no values. -/
inductive Chan where
  | nil
  | made
  | closed
  deriving DecidableEq, Repr

/-- Lines 41-47 (without the mutex). -/
structure AuthService where
  marketUri : String
  f : File
  tokens : Tokens
  quit : Chan
  deriving DecidableEq, Repr

def tokenFile : String := "sealing_market_tokens.json"

def registerUri (server otp : String) : String := server ++ "/appliance/register/" ++ otp
def verifyUri (server : String) : String := server ++ "/appliance/verify"
def refreshUri (server : String) : String := server ++ "/appliance/refresh"

/-- What `New` observes of the operating system. -/
structure OS where
  /-- The call `os.UserHomeDir()`. -/
  userHomeDir : Option String
  /-- Whether `os.Stat(dir)` reports that the directory does not exist. -/
  notExist : String → Bool
  /-- The call `os.OpenFile(path.Join(dir, name), O_RDWR|O_CREATE, 0666)`: the
  contents of the file (empty when it is created), `none` for an error. -/
  openFile : String → String → Option Bytes
  statOk : Bool
  readOk : Bool
  seekOk : Bool

/-- Lines 49-97. -/
def New (lib : Lib) (os : OS) (marketUri workingDir : String) : Except Err AuthService :=
  let home : Except Err String :=
    match workingDir.data with
    | '~' :: rest =>
      match os.userHomeDir with
      | none => .error .userHomeDir
      | some homeDir => .ok (homeDir ++ String.mk rest)
    | _ => .ok workingDir
  match home with
  | .error e => .error e
  | .ok workingDir =>
    if os.notExist workingDir then .error (.workingDirDoesNotExist workingDir) else
    match os.openFile workingDir tokenFile with
    | none => .error .openTokensFile
    | some contents =>
      if !os.statOk then .error .tokenFileStat else
      if 0 < contents.length then
        if !os.readOk then .error .readTokensFile else
        if !os.seekOk then .error .seekToStart else
        match lib.UnmarshalTokens contents with
        | none => .error .unmarshalTokens
        | some t =>
          .ok { marketUri := marketUri, f := { data := contents, pos := 0 }, tokens := t, quit := .made }
      else
        .ok { marketUri := marketUri, f := { data := contents, pos := 0 }, tokens := Tokens.zero,
              quit := .made }

/-- Lines 78-94: the pair `New` loads from a token file with these contents:
the zero pair for an empty file, what `json.Unmarshal` gives otherwise
(`none` when it fails). -/
def stored (lib : Lib) (contents : Bytes) : Option Tokens :=
  if 0 < contents.length then lib.UnmarshalTokens contents else some Tokens.zero

/-- Lines 101-105: the request after `s.AccessToken(req)`. -/
def AccessToken (s : AuthService) (req : Request) : Request :=
  { req with Header := req.Header.Add "Authorization" ("Bearer " ++ s.tokens.Access) }

/-- The outcome of an operation returning `(Tokens, error)`, with the
service as the operation leaves it. -/
structure TokenResult where
  tokens : Tokens
  err : Option Err
  svc : AuthService
  deriving DecidableEq, Repr

/-- Lines 197-201: the pair built from a decoded response when `time.Now()`
reads `now`. The conversion `time.Duration(tokens.TTL)` and the product with
`time.Second` are 64-bit operations. -/
def persisted (now : Int) (tokens : TokensResponse) : Tokens :=
  { Access := tokens.Access
    Refresh := tokens.Refresh
    Expires := timeAdd now (wrap64 (Second * wrap64 tokens.TTL)) }

/-- Lines 181-225. -/
def processTokenResponse (lib : Lib) (env : Env) (s : AuthService) (resp : Response) :
    TokenResult :=
  if resp.StatusCode ≠ 200 then
    { tokens := Tokens.zero, err := some (.invalidResponseCode resp.StatusCode), svc := s }
  else
  match resp.Body with
  | none => { tokens := Tokens.zero, err := some .readResponseBody, svc := s }
  | some respBytes =>
  match lib.UnmarshalResponse respBytes with
  | none => { tokens := Tokens.zero, err := some .unmarshalTokens, svc := s }
  | some tokens =>
  let persistedTokens : Tokens := persisted env.now tokens
  match lib.Marshal persistedTokens with
  | none => { tokens := Tokens.zero, err := some .marshalTokens, svc := s }
  | some b =>
  if !env.truncateOk then
    { tokens := Tokens.zero, err := some .truncateTokensFile, svc := s }
  else
  let s1 : AuthService := { s with f := s.f.Truncate0 true }
  let n := min env.written b.length
  let s2 : AuthService := { s1 with f := s1.f.Write b n }
  if env.writeErr then
    { tokens := Tokens.zero, err := some .writeTokens, svc := s2 }
  else if n < b.length then
    { tokens := Tokens.zero, err := some .shortWriteTokens, svc := s2 }
  else
    { tokens := persistedTokens, err := none, svc := s2 }

/-- The call `http.Post(url, "text/plain", nil)`. -/
def httpPost (lib : Lib) (env : Env) (url : String) : Option Response :=
  if lib.validURL url then
    env.send { Method := "POST", URL := url, Header := [("Content-Type", ["text/plain"])] }
  else none

/-- Lines 138-144. -/
def Register (lib : Lib) (env : Env) (s : AuthService) (otp : String) : TokenResult :=
  match httpPost lib env (registerUri s.marketUri otp) with
  | none => { tokens := Tokens.zero, err := some .postingOtp, svc := s }
  | some resp => processTokenResponse lib env s resp

/-- Lines 146-164: the error returned and the service after the call. -/
def Verify (lib : Lib) (env : Env) (s : AuthService) (accessToken : String) :
    Option Err × AuthService :=
  if !lib.validURL (verifyUri s.marketUri) then (some .createVerifyRequest, s) else
  let req : Request :=
    { Method := "GET", URL := verifyUri s.marketUri,
      Header := Header.Add [] "Authorization" ("Bearer " ++ accessToken) }
  match env.send req with
  | none => (some .getVerify, s)
  | some resp =>
    if resp.StatusCode ≠ 200 then (some .ValidationError, s) else (none, s)

/-- Lines 166-179. -/
def Refresh (lib : Lib) (env : Env) (s : AuthService) (refreshToken : String) : TokenResult :=
  if !lib.validURL (refreshUri s.marketUri) then
    { tokens := Tokens.zero, err := some .createRefreshRequest, svc := s }
  else
  let req : Request :=
    { Method := "POST", URL := refreshUri s.marketUri,
      Header := Header.Add [] "Authorization" ("Bearer " ++ refreshToken) }
  match env.send req with
  | none => { tokens := Tokens.zero, err := some .getVerify, svc := s }
  | some resp => processTokenResponse lib env s resp

/-- The request `Refresh` sends: a POST carrying the refresh token. -/
def refreshRequest (s : AuthService) (refreshToken : String) : Request :=
  { Method := "POST", URL := refreshUri s.marketUri,
    Header := [("Authorization", ["Bearer " ++ refreshToken])] }

/-- The request `Verify` sends: a GET carrying the access token. -/
def verifyRequest (s : AuthService) (accessToken : String) : Request :=
  { Method := "GET", URL := verifyUri s.marketUri,
    Header := [("Authorization", ["Bearer " ++ accessToken])] }

/-- What `PollRefresh` does that is visible from outside during a cycle. -/
inductive Event where
  | Refresh (refreshToken : String)
  | Verify (accessToken : String)
  | Warn (e : Err)
  deriving DecidableEq, Repr

/-- Lines 114-126: one pass through the body of the loop, after the wait,
with the clock reading `clock` at the expiry check. -/
def pollCycle (lib : Lib) (env : Env) (clock : Int) (s : AuthService) :
    AuthService × List Event :=
  if timeUntil clock s.tokens.Expires ≤ refreshThreshold then
    let r := Refresh lib env s s.tokens.Refresh
    match r.err with
    | some e => (r.svc, [.Refresh s.tokens.Refresh, .Warn e])
    | none =>
      let s1 : AuthService := { r.svc with tokens := r.tokens }
      let v := Verify lib env s1 s1.tokens.Access
      match v.1 with
      | some e => (v.2, [.Refresh s.tokens.Refresh, .Verify s1.tokens.Access, .Warn e])
      | none => (v.2, [.Refresh s.tokens.Refresh, .Verify s1.tokens.Access])
  else
    let v := Verify lib env s s.tokens.Access
    match v.1 with
    | some e => (v.2, [.Verify s.tokens.Access, .Warn e])
    | none => (v.2, [.Verify s.tokens.Access])

/-- One wake-up of the `select` of lines 109-113. -/
structure Tick where
  /-- The branch `<-ctx.Done()` was taken. -/
  cancelled : Bool
  clock : Int
  env : Env

/-- Lines 107-128, run over the wake-ups the loop goes through. -/
def PollRefresh (lib : Lib) : List Tick → AuthService → AuthService × List Event
  | [], s => (s, [])
  | t :: rest, s =>
    if t.cancelled then (s, [])
    else
      let c := pollCycle lib t.env t.clock s
      let r := PollRefresh lib rest c.1
      (r.1, c.2 ++ r.2)

/-- A Go panic. -/
inductive Panic where
  | closeOfNilChannel
  | closeOfClosedChannel
  deriving DecidableEq, Repr

/-- Lines 130-132: `close(s.quit)`. -/
def Close (s : AuthService) : Except Panic AuthService :=
  match s.quit with
  | .nil => .error .closeOfNilChannel
  | .closed => .error .closeOfClosedChannel
  | .made => .ok { s with quit := .closed }

/-! ## A concrete library, machine and market for the examples -/

namespace Sample

/-- The bytes of a string of ASCII characters. -/
def ascii (s : String) : Bytes := s.data.map (fun c => c.toNat.toUInt8)

def plainByte (b : UInt8) : Bool :=
  32 ≤ b.toNat && b.toNat ≤ 126 && b.toNat != 34 && b.toNat != 92 && b.toNat != 60 &&
    b.toNat != 62 && b.toNat != 38

def plain (s : String) : Bool := s.data.all (fun c => plainByte c.toNat.toUInt8 && c.toNat < 128)

def digit (n : Nat) : UInt8 := (48 + n % 10).toUInt8

/-- The last `w` decimal digits of `n`, zero padded. -/
def digits : Nat → Nat → Bytes
  | 0, _ => []
  | w + 1, n => digits w (n / 10) ++ [digit n]

/-- Year, month and day of a day number counted from 1970-01-01. -/
def civil (z : Int) : Int × Nat × Nat :=
  let z := z + 719468
  let era := z / 146097
  let doe := (z - era * 146097).toNat
  let yoe := (doe - doe / 1460 + doe / 36524 - doe / 146096) / 365
  let doy := doe - (365 * yoe + yoe / 4 - yoe / 100)
  let mp := (5 * doy + 2) / 153
  let d := doy - (153 * mp + 2) / 5 + 1
  let m := if mp < 10 then mp + 3 else mp - 9
  let y := (yoe : Int) + era * 400 + (if m ≤ 2 then 1 else 0)
  (y, m, d)

/-- Day number of a date. -/
def days (y : Int) (m d : Nat) : Int :=
  let y := if m ≤ 2 then y - 1 else y
  let era := y / 400
  let yoe := (y - era * 400).toNat
  let mp := if 2 < m then m - 3 else m + 9
  let doy := (153 * mp + 2) / 5 + d - 1
  let doe := yoe * 365 + yoe / 4 - yoe / 100 + doy
  era * 146097 + (doe : Int) - 719468

/-- Drops the zeros at the end of a fraction. -/
def trimZeros (b : Bytes) : Bytes :=
  (b.reverse.dropWhile (fun c => c == 48)).reverse

/-- The layout RFC3339Nano in UTC; `none` outside the years 0 to 9999. -/
def formatTime (t : Int) : Option Bytes :=
  let secs := t / 1000000000
  let nanos := (t % 1000000000).toNat
  let day := secs / 86400
  let sod := (secs % 86400).toNat
  let (y, m, d) := civil day
  if y < 0 ∨ 9999 < y then none else
  let frac := trimZeros (digits 9 nanos)
  some (digits 4 y.toNat ++ ascii "-" ++ digits 2 m ++ ascii "-" ++ digits 2 d ++ ascii "T" ++
    digits 2 (sod / 3600) ++ ascii ":" ++ digits 2 (sod / 60 % 60) ++ ascii ":" ++
    digits 2 (sod % 60) ++ (if frac = [] then [] else ascii "." ++ frac) ++ ascii "Z")

def marshalTokens (t : Tokens) : Option Bytes :=
  if plain t.Access && plain t.Refresh then
    match formatTime t.Expires with
    | none => none
    | some e =>
      some (ascii "\x7b\"access\":\"" ++ ascii t.Access ++ ascii "\",\"refresh\":\"" ++
        ascii t.Refresh ++ ascii "\",\"expires\":\"" ++ e ++ ascii "\"\x7d")
  else none

/-- Removes `p` from the front of `b`. -/
def strip : Bytes → Bytes → Option Bytes
  | [], b => some b
  | _ :: _, [] => none
  | p :: ps, c :: cs => if p = c then strip ps cs else none

/-- Reads plain characters up to the closing quote. -/
def readString : Bytes → Option (String × Bytes)
  | [] => none
  | c :: cs =>
    if c = 34 then some ("", cs)
    else if plainByte c then
      match readString cs with
      | none => none
      | some (s, rest) => some (String.mk (Char.ofNat c.toNat :: s.data), rest)
    else none

/-- Reads decimal digits. -/
def readNat : Bytes → Nat → Nat → Nat × Nat × Bytes
  | [], acc, k => (acc, k, [])
  | c :: cs, acc, k =>
    if 48 ≤ c.toNat && c.toNat ≤ 57 then readNat cs (acc * 10 + (c.toNat - 48)) (k + 1)
    else (acc, k, c :: cs)

def readInt (b : Bytes) : Option (Int × Bytes) :=
  match b with
  | 45 :: cs =>
    if (readNat cs 0 0).2.1 = 0 then none
    else some (-((readNat cs 0 0).1 : Int), (readNat cs 0 0).2.2)
  | _ =>
    if (readNat b 0 0).2.1 = 0 then none
    else some (((readNat b 0 0).1 : Int), (readNat b 0 0).2.2)

/-- Removes `p` from the front of `b` and then reads a string. -/
def readMember (p : Bytes) (b : Bytes) : Option (String × Bytes) :=
  (strip p b).bind readString

def unmarshalResponse (b : Bytes) : Option TokensResponse :=
  (readMember (ascii "\x7b\"access\":\"") b).bind fun a =>
  (readMember (ascii ",\"refresh\":\"") a.2).bind fun r =>
  ((strip (ascii ",\"ttl\":") r.2).bind readInt).bind fun n =>
  if n.2 = ascii "\x7d" ∧ -(2 ^ 63) ≤ n.1 ∧ n.1 < 2 ^ 63 then
    some { Access := a.1, Refresh := r.1, TTL := n.1 }
  else none

/-- Reads exactly `w` digits. -/
def readFixed (w : Nat) (b : Bytes) : Option (Nat × Bytes) :=
  if (readNat (b.take w) 0 0).2.1 = w then some ((readNat (b.take w) 0 0).1, b.drop w) else none

/-- Reads `w` digits and then the bytes `sep`. -/
def readField (w : Nat) (sep : Bytes) (b : Bytes) : Option (Nat × Bytes) :=
  (readFixed w b).bind fun p => (strip sep p.2).map fun rest => (p.1, rest)

/-- Reads the fraction of a second, if there is one, in nanoseconds. -/
def readFraction (b : Bytes) : Option (Nat × Bytes) :=
  match b with
  | 46 :: cs =>
    if 0 < (readNat cs 0 0).2.1 ∧ (readNat cs 0 0).2.1 ≤ 9 then
      some ((readNat cs 0 0).1 * 10 ^ (9 - (readNat cs 0 0).2.1), (readNat cs 0 0).2.2)
    else none
  | _ => some (0, b)

/-- Reads an instant in the layout RFC3339Nano, in UTC. -/
def parseTime (b : Bytes) : Option (Int × Bytes) :=
  (readField 4 (ascii "-") b).bind fun y =>
  (readField 2 (ascii "-") y.2).bind fun m =>
  (readField 2 (ascii "T") m.2).bind fun d =>
  (readField 2 (ascii ":") d.2).bind fun hh =>
  (readField 2 (ascii ":") hh.2).bind fun mm =>
  (readFixed 2 mm.2).bind fun ss =>
  (readFraction ss.2).bind fun ns =>
  (strip (ascii "Z") ns.2).map fun rest =>
    ((days y.1 m.1 d.1 * 86400 + ((hh.1 * 3600 + mm.1 * 60 + ss.1 : Nat) : Int)) * 1000000000
      + (ns.1 : Int), rest)

def unmarshalTokens (b : Bytes) : Option Tokens :=
  (readMember (ascii "\x7b\"access\":\"") b).bind fun a =>
  (readMember (ascii ",\"refresh\":\"") a.2).bind fun r =>
  ((strip (ascii ",\"expires\":\"") r.2).bind parseTime).bind fun t =>
  if t.2 = ascii "\"\x7d" then some { Access := a.1, Refresh := r.1, Expires := t.1 } else none

/-- A stand-in for the Go libraries on the inputs of the examples: tokens of
plain ASCII characters, the clock in UTC, and JSON objects in the layout
`json.Marshal` writes. On those inputs it gives what encoding/json gives. -/
def lib : Lib :=
  { Marshal := marshalTokens
    UnmarshalTokens := unmarshalTokens
    UnmarshalResponse := unmarshalResponse
    validURL := fun u => u.data.all (fun c => 32 < c.toNat && c.toNat < 127) }

/-- A machine whose working directory exists and whose token file holds `contents`. -/
def machine (contents : Bytes) : OS :=
  { userHomeDir := some "/home/worker"
    notExist := fun _ => false
    openFile := fun _ _ => some contents
    statOk := true
    readOk := true
    seekOk := true }

def marketUri : String := "http://localhost:3000"

def workingDir : String := "~/.lotusworker"

/-- The body `{"access":"a1","refresh":"r1","ttl":3600}`. -/
def body1 : Bytes := ascii "\x7b\"access\":\"a1\",\"refresh\":\"r1\",\"ttl\":3600\x7d"

/-- The body `{"access":"a2","refresh":"r2","ttl":3600}`. -/
def body2 : Bytes := ascii "\x7b\"access\":\"a2\",\"refresh\":\"r2\",\"ttl\":3600\x7d"

/-- A market that registers the code 123456 with `body1`, refreshes the
token r1 with `body2`, accepts the access tokens a1 and a2 at the verify
endpoint and answers 401 to any other verify request and 500 to the rest. -/
def market (req : Request) : Option Response :=
  if req.Method = "POST" ∧ req.URL = "http://localhost:3000/appliance/register/123456" then
    some { StatusCode := 200, Body := some body1 }
  else if req.Method = "POST" ∧ req.URL = "http://localhost:3000/appliance/refresh" ∧
      req.Header.Values "Authorization" = ["Bearer r1"] then
    some { StatusCode := 200, Body := some body2 }
  else if req.Method = "GET" ∧ req.URL = "http://localhost:3000/appliance/verify" then
    if req.Header.Values "Authorization" = ["Bearer a1"] ∨
        req.Header.Values "Authorization" = ["Bearer a2"] then
      some { StatusCode := 200, Body := some [] }
    else some { StatusCode := 401, Body := some [] }
  else some { StatusCode := 500, Body := some [] }

/-- The instant 2026-11-04T12:00:00Z. -/
def noon : Int := 1793793600 * 1000000000

/-- The market above, the clock at `now`, and a disk that takes every write. -/
def env (now : Int) : Env :=
  { send := market, now := now, truncateOk := true, written := 1000000, writeErr := false }

/-- The same, with a disk whose write fails after `n` bytes. -/
def envWriteFails (now : Int) (n : Nat) : Env :=
  { send := market, now := now, truncateOk := true, written := n, writeErr := true }

/-- The clock at `now`, a working disk, and a market that cannot be reached. -/
def offline (now : Int) : Env :=
  { send := fun _ => none, now := now, truncateOk := true, written := 1000000, writeErr := false }

/-- The service `New` gives on a machine with an empty token file. -/
def fresh : AuthService :=
  { marketUri := marketUri, f := { data := [], pos := 0 }, tokens := Tokens.zero, quit := .made }

/-- The pair issued at noon from `body1`. -/
def pair1 : Tokens := { Access := "a1", Refresh := "r1", Expires := noon + 3600 * 1000000000 }

/-- The 63 bytes `{"access":"a1","refresh":"r1","expires":"2026-11-04T13:00:00Z"}`. -/
def file1 : Bytes :=
  ascii "\x7b\"access\":\"a1\",\"refresh\":\"r1\",\"expires\":\"2026-11-04T13:00:00Z\"\x7d"

/-- The service `New` gives on a machine whose token file holds `file1`. -/
def loaded : AuthService :=
  { marketUri := marketUri, f := { data := file1, pos := 0 }, tokens := pair1, quit := .made }

/-- The instant 2026-11-04T12:30:00Z. -/
def halfPast : Int := noon + 1800 * 1000000000

/-- The 63 bytes `{"access":"a2","refresh":"r2","expires":"2026-11-04T13:30:00Z"}`. -/
def file2 : Bytes :=
  ascii "\x7b\"access\":\"a2\",\"refresh\":\"r2\",\"expires\":\"2026-11-04T13:30:00Z\"\x7d"

/-- The pair issued at half past noon from `body2`. -/
def pair2 : Tokens := { Access := "a2", Refresh := "r2", Expires := halfPast + 3600 * 1000000000 }

/-- The service after `Register` on `fresh`: the file is written, the pair in memory is not. -/
def registered : AuthService := { fresh with f := { data := file1, pos := 63 } }

/-- The instant 2026-11-04T12:45:00Z. -/
def quarterTo : Int := noon + 2700 * 1000000000

/-- A request with no header yet. -/
def request : Request := { Method := "GET", URL := "http://localhost:3000/jobs", Header := [] }

/-- The body `{"access":"a3","refresh":"r3","ttl":9223372037}`. -/
def body3 : Bytes := ascii "\x7b\"access\":\"a3\",\"refresh\":\"r3\",\"ttl\":9223372037\x7d"

end Sample


/-! ## Arithmetic of durations -/

theorem refreshThreshold_eq : refreshThreshold = 1800000000000 := by decide

theorem pollTime_eq : pollTime = 600000000000 := by decide

/-- Saturating a difference does not change how it compares with the threshold. -/
theorem saturate64_le_refreshThreshold (x : Int) :
    saturate64 x ≤ refreshThreshold ↔ x ≤ refreshThreshold := by
  have hmin : minDuration = -9223372036854775808 := by decide
  have hmax : maxDuration = 9223372036854775807 := by decide
  rw [refreshThreshold_eq]
  unfold saturate64
  rw [hmin, hmax]
  split_ifs <;> constructor <;> intro h <;> omega

/-- A number of seconds that fits a Duration is converted without wrap-around. -/
theorem wrap64_seconds (n : Int) (h1 : -9223372036 ≤ n) (h2 : n ≤ 9223372036) :
    wrap64 (Second * wrap64 n) = n * Second := by
  unfold wrap64 Second
  omega

/-! ## The file -/

theorem writeAt_zero (b : Bytes) : writeAt [] 0 b = b := by
  cases b <;> simp [writeAt]

theorem writeAt_gap (p : Nat) (b : Bytes) (hb : b ≠ []) :
    writeAt [] p b = List.replicate p 0 ++ b := by
  cases b with
  | nil => exact absurd rfl hb
  | cons c cs => simp [writeAt]

theorem take_min_length (n : Nat) (b : Bytes) : b.take (min n b.length) = b.take n := by
  rcases Nat.le_total n b.length with h | h
  · rw [Nat.min_eq_left h]
  · rw [Nat.min_eq_right h, List.take_of_length_le h, List.take_of_length_le (Nat.le_refl _)]

/-! ## Headers -/

theorem Header.Values_Add (h : Header) (key value : String) :
    Header.Values (Header.Add h key value) key = Header.Values h key ++ [value] := by
  induction h with
  | nil => simp [Header.Add, Header.Values]
  | cons kv rest ih =>
    obtain ⟨k, vs⟩ := kv
    by_cases hk : k = key
    · simp [Header.Add, Header.Values, hk]
    · simp [Header.Add, Header.Values, hk, ih]

/-! ## processTokenResponse, path by path -/

theorem processTokenResponse_badStatus (lib : Lib) (env : Env) (s : AuthService)
    (resp : Response) (hs : resp.StatusCode ≠ 200) :
    processTokenResponse lib env s resp =
      { tokens := Tokens.zero, err := some (.invalidResponseCode resp.StatusCode), svc := s } := by
  simp [processTokenResponse, hs]

theorem processTokenResponse_readError (lib : Lib) (env : Env) (s : AuthService)
    (resp : Response) (hs : resp.StatusCode = 200) (hB : resp.Body = none) :
    processTokenResponse lib env s resp =
      { tokens := Tokens.zero, err := some .readResponseBody, svc := s } := by
  simp [processTokenResponse, hs, hB]

theorem processTokenResponse_malformed (lib : Lib) (env : Env) (s : AuthService)
    (resp : Response) (body : Bytes) (hs : resp.StatusCode = 200) (hB : resp.Body = some body)
    (hU : lib.UnmarshalResponse body = none) :
    processTokenResponse lib env s resp =
      { tokens := Tokens.zero, err := some .unmarshalTokens, svc := s } := by
  simp [processTokenResponse, hs, hB, hU]

theorem processTokenResponse_marshalError (lib : Lib) (env : Env) (s : AuthService)
    (resp : Response) (body : Bytes) (tr : TokensResponse) (hs : resp.StatusCode = 200)
    (hB : resp.Body = some body) (hU : lib.UnmarshalResponse body = some tr)
    (hM : lib.Marshal (persisted env.now tr) = none) :
    processTokenResponse lib env s resp =
      { tokens := Tokens.zero, err := some .marshalTokens, svc := s } := by
  simp [processTokenResponse, hs, hB, hU, hM]

theorem processTokenResponse_truncateError (lib : Lib) (env : Env) (s : AuthService)
    (resp : Response) (body b : Bytes) (tr : TokensResponse) (hs : resp.StatusCode = 200)
    (hB : resp.Body = some body) (hU : lib.UnmarshalResponse body = some tr)
    (hM : lib.Marshal (persisted env.now tr) = some b) (hT : env.truncateOk = false) :
    processTokenResponse lib env s resp =
      { tokens := Tokens.zero, err := some .truncateTokensFile, svc := s } := by
  simp [processTokenResponse, hs, hB, hU, hM, hT]

theorem processTokenResponse_writeError (lib : Lib) (env : Env) (s : AuthService)
    (resp : Response) (body b : Bytes) (tr : TokensResponse) (hs : resp.StatusCode = 200)
    (hB : resp.Body = some body) (hU : lib.UnmarshalResponse body = some tr)
    (hM : lib.Marshal (persisted env.now tr) = some b) (hT : env.truncateOk = true)
    (hW : env.writeErr = true) :
    processTokenResponse lib env s resp =
      { tokens := Tokens.zero, err := some .writeTokens,
        svc := { s with f := { data := writeAt [] s.f.pos (b.take env.written),
                               pos := s.f.pos + min env.written b.length } } } := by
  simp [processTokenResponse, hs, hB, hU, hM, hT, hW, File.Truncate0, File.Write,
    List.length_take, take_min_length]

theorem processTokenResponse_shortWrite (lib : Lib) (env : Env) (s : AuthService)
    (resp : Response) (body b : Bytes) (tr : TokensResponse) (hs : resp.StatusCode = 200)
    (hB : resp.Body = some body) (hU : lib.UnmarshalResponse body = some tr)
    (hM : lib.Marshal (persisted env.now tr) = some b) (hT : env.truncateOk = true)
    (hW : env.writeErr = false) (hn : env.written < b.length) :
    processTokenResponse lib env s resp =
      { tokens := Tokens.zero, err := some .shortWriteTokens,
        svc := { s with f := { data := writeAt [] s.f.pos (b.take env.written),
                               pos := s.f.pos + env.written } } } := by
  have hmin : min env.written b.length = env.written := by omega
  simp [processTokenResponse, hs, hB, hU, hM, hT, hW, hn, File.Truncate0, File.Write,
    List.length_take, hmin]

theorem processTokenResponse_written (lib : Lib) (env : Env) (s : AuthService)
    (resp : Response) (body b : Bytes) (tr : TokensResponse) (hs : resp.StatusCode = 200)
    (hB : resp.Body = some body) (hU : lib.UnmarshalResponse body = some tr)
    (hM : lib.Marshal (persisted env.now tr) = some b) (hT : env.truncateOk = true)
    (hW : env.writeErr = false) (hn : b.length ≤ env.written) :
    processTokenResponse lib env s resp =
      { tokens := persisted env.now tr, err := none,
        svc := { s with f := { data := writeAt [] s.f.pos b, pos := s.f.pos + b.length } } } := by
  have hmin : min env.written b.length = b.length := by omega
  have hn2 : ¬ env.written < b.length := by omega
  simp [processTokenResponse, hs, hB, hU, hM, hT, hW, hn2, File.Truncate0, File.Write, hmin]

/-- Every call takes one of three shapes: it fails before the file is
touched, it fails after the file was truncated, or it succeeds and the
encoding of the returned pair was written at the offset of the handle. -/
theorem processTokenResponse_cases (lib : Lib) (env : Env) (s : AuthService) (resp : Response) :
    (∃ e, e ≠ Err.writeTokens ∧ e ≠ Err.shortWriteTokens ∧
      processTokenResponse lib env s resp = { tokens := Tokens.zero, err := some e, svc := s }) ∨
    (∃ e f, (e = Err.writeTokens ∨ e = Err.shortWriteTokens) ∧
      processTokenResponse lib env s resp =
        { tokens := Tokens.zero, err := some e, svc := { s with f := f } }) ∨
    (∃ body tr b, resp.StatusCode = 200 ∧ resp.Body = some body ∧
      lib.UnmarshalResponse body = some tr ∧ lib.Marshal (persisted env.now tr) = some b ∧
      env.truncateOk = true ∧ env.writeErr = false ∧ b.length ≤ env.written ∧
      processTokenResponse lib env s resp =
        { tokens := persisted env.now tr, err := none,
          svc := { s with f := { data := writeAt [] s.f.pos b, pos := s.f.pos + b.length } } }) := by
  by_cases hs : resp.StatusCode = 200
  · cases hB : resp.Body with
    | none =>
      exact Or.inl ⟨_, by simp, by simp, processTokenResponse_readError lib env s resp hs hB⟩
    | some body =>
      cases hU : lib.UnmarshalResponse body with
      | none =>
        exact Or.inl ⟨_, by simp, by simp,
          processTokenResponse_malformed lib env s resp body hs hB hU⟩
      | some tr =>
        cases hM : lib.Marshal (persisted env.now tr) with
        | none =>
          exact Or.inl ⟨_, by simp, by simp,
            processTokenResponse_marshalError lib env s resp body tr hs hB hU hM⟩
        | some b =>
          cases hT : env.truncateOk with
          | false =>
            exact Or.inl ⟨_, by simp, by simp,
              processTokenResponse_truncateError lib env s resp body b tr hs hB hU hM hT⟩
          | true =>
            cases hW : env.writeErr with
            | true =>
              exact Or.inr (Or.inl ⟨_, _, Or.inl rfl,
                processTokenResponse_writeError lib env s resp body b tr hs hB hU hM hT hW⟩)
            | false =>
              by_cases hn : b.length ≤ env.written
              · exact Or.inr (Or.inr ⟨body, tr, b, hs, rfl, hU, hM, rfl, rfl, hn,
                  processTokenResponse_written lib env s resp body b tr hs hB hU hM hT hW hn⟩)
              · exact Or.inr (Or.inl ⟨_, _, Or.inr rfl,
                  processTokenResponse_shortWrite lib env s resp body b tr hs hB hU hM hT hW
                    (by omega)⟩)
  · exact Or.inl ⟨_, by simp, by simp, processTokenResponse_badStatus lib env s resp hs⟩

/-- No call changes the pair in memory. -/
theorem processTokenResponse_tokens_unchanged (lib : Lib) (env : Env) (s : AuthService)
    (resp : Response) : (processTokenResponse lib env s resp).svc.tokens = s.tokens := by
  rcases processTokenResponse_cases lib env s resp with
    ⟨e, _, _, h⟩ | ⟨e, f, _, h⟩ | ⟨body, tr, b, _, _, _, _, _, _, _, h⟩ <;> rw [h]

/-- A call that fails returns the zero pair. -/
theorem processTokenResponse_err_zero (lib : Lib) (env : Env) (s : AuthService)
    (resp : Response) (h : (processTokenResponse lib env s resp).err ≠ none) :
    (processTokenResponse lib env s resp).tokens = Tokens.zero := by
  rcases processTokenResponse_cases lib env s resp with
    ⟨e, _, _, h1⟩ | ⟨e, f, _, h1⟩ | ⟨body, tr, b, _, _, _, _, _, _, _, h1⟩
  · rw [h1]
  · rw [h1]
  · rw [h1] at h
    exact absurd rfl h

/-- When a call succeeds. -/
theorem processTokenResponse_err_none_iff (lib : Lib) (env : Env) (s : AuthService)
    (resp : Response) :
    (processTokenResponse lib env s resp).err = none ↔
      resp.StatusCode = 200 ∧ ∃ body tr b, resp.Body = some body ∧
        lib.UnmarshalResponse body = some tr ∧ lib.Marshal (persisted env.now tr) = some b ∧
        env.truncateOk = true ∧ env.writeErr = false ∧ b.length ≤ env.written := by
  constructor
  · intro h
    rcases processTokenResponse_cases lib env s resp with
      ⟨e, _, _, h1⟩ | ⟨e, f, _, h1⟩ | ⟨body, tr, b, hs, hB, hU, hM, hT, hW, hn, _⟩
    · rw [h1] at h
      exact absurd h (by simp)
    · rw [h1] at h
      exact absurd h (by simp)
    · exact ⟨hs, body, tr, b, hB, hU, hM, hT, hW, hn⟩
  · rintro ⟨hs, body, tr, b, hB, hU, hM, hT, hW, hn⟩
    rw [processTokenResponse_written lib env s resp body b tr hs hB hU hM hT hW hn]

/-- A failure other than a write error or a short write leaves the service as it was. -/
theorem processTokenResponse_err_svc (lib : Lib) (env : Env) (s : AuthService)
    (resp : Response) (h : (processTokenResponse lib env s resp).err ≠ none)
    (hw : (processTokenResponse lib env s resp).err ≠ some Err.writeTokens)
    (hsw : (processTokenResponse lib env s resp).err ≠ some Err.shortWriteTokens) :
    (processTokenResponse lib env s resp).svc = s := by
  rcases processTokenResponse_cases lib env s resp with
    ⟨e, _, _, h1⟩ | ⟨e, f, he, h1⟩ | ⟨body, tr, b, _, _, _, _, _, _, _, h1⟩
  · rw [h1]
  · rw [h1] at hw hsw
    rcases he with rfl | rfl
    · exact absurd rfl hw
    · exact absurd rfl hsw
  · rw [h1] at h
    exact absurd rfl h

/-! ## The operations built on processTokenResponse -/

theorem Register_of_response (lib : Lib) (env : Env) (s : AuthService) (otp : String)
    (resp : Response) (h : httpPost lib env (registerUri s.marketUri otp) = some resp) :
    Register lib env s otp = processTokenResponse lib env s resp := by
  simp [Register, h]

theorem Register_of_no_response (lib : Lib) (env : Env) (s : AuthService) (otp : String)
    (h : httpPost lib env (registerUri s.marketUri otp) = none) :
    Register lib env s otp = { tokens := Tokens.zero, err := some .postingOtp, svc := s } := by
  simp [Register, h]

theorem Refresh_of_response (lib : Lib) (env : Env) (s : AuthService) (tok : String)
    (resp : Response) (hv : lib.validURL (refreshUri s.marketUri) = true)
    (h : env.send (refreshRequest s tok) = some resp) :
    Refresh lib env s tok = processTokenResponse lib env s resp := by
  simp [refreshRequest, Header.Add] at h
  simp [Refresh, hv, Header.Add, h]

theorem Refresh_of_invalid (lib : Lib) (env : Env) (s : AuthService) (tok : String)
    (hv : lib.validURL (refreshUri s.marketUri) = false) :
    Refresh lib env s tok =
      { tokens := Tokens.zero, err := some .createRefreshRequest, svc := s } := by
  simp [Refresh, hv]

theorem Refresh_of_no_response (lib : Lib) (env : Env) (s : AuthService) (tok : String)
    (hv : lib.validURL (refreshUri s.marketUri) = true)
    (h : env.send (refreshRequest s tok) = none) :
    Refresh lib env s tok = { tokens := Tokens.zero, err := some .getVerify, svc := s } := by
  simp [refreshRequest, Header.Add] at h
  simp [Refresh, hv, Header.Add, h]

/-- The shapes of a `Refresh` call: no response, or the outcome of
`processTokenResponse` on the response. -/
theorem Refresh_cases (lib : Lib) (env : Env) (s : AuthService) (tok : String) :
    (∃ e, e ≠ Err.writeTokens ∧ e ≠ Err.shortWriteTokens ∧
      Refresh lib env s tok = { tokens := Tokens.zero, err := some e, svc := s }) ∨
    (∃ resp, lib.validURL (refreshUri s.marketUri) = true ∧
      env.send (refreshRequest s tok) = some resp ∧
      Refresh lib env s tok = processTokenResponse lib env s resp) := by
  cases hv : lib.validURL (refreshUri s.marketUri) with
  | false => exact Or.inl ⟨_, by simp, by simp, Refresh_of_invalid lib env s tok hv⟩
  | true =>
    cases h : env.send (refreshRequest s tok) with
    | none => exact Or.inl ⟨_, by simp, by simp, Refresh_of_no_response lib env s tok hv h⟩
    | some resp => exact Or.inr ⟨resp, rfl, rfl, Refresh_of_response lib env s tok resp hv h⟩

theorem Refresh_tokens_unchanged (lib : Lib) (env : Env) (s : AuthService) (tok : String) :
    (Refresh lib env s tok).svc.tokens = s.tokens := by
  rcases Refresh_cases lib env s tok with ⟨e, _, _, h⟩ | ⟨resp, _, _, h⟩
  · rw [h]
  · rw [h, processTokenResponse_tokens_unchanged]

/-- A call that fails with a write error or a short write has truncated the
file and left in it, at the offset of the handle, the bytes of the encoding
that the write accepted. -/
theorem processTokenResponse_write_failed (lib : Lib) (env : Env) (s : AuthService)
    (resp : Response)
    (h : (processTokenResponse lib env s resp).err = some Err.writeTokens ∨
      (processTokenResponse lib env s resp).err = some Err.shortWriteTokens) :
    ∃ body tr b, resp.Body = some body ∧ lib.UnmarshalResponse body = some tr ∧
      lib.Marshal (persisted env.now tr) = some b ∧
      (processTokenResponse lib env s resp).svc.f.data =
        writeAt [] s.f.pos (b.take env.written) := by
  by_cases hs : resp.StatusCode = 200
  · cases hB : resp.Body with
    | none =>
      rw [processTokenResponse_readError lib env s resp hs hB] at h
      simp at h
    | some body =>
      cases hU : lib.UnmarshalResponse body with
      | none =>
        rw [processTokenResponse_malformed lib env s resp body hs hB hU] at h
        simp at h
      | some tr =>
        cases hM : lib.Marshal (persisted env.now tr) with
        | none =>
          rw [processTokenResponse_marshalError lib env s resp body tr hs hB hU hM] at h
          simp at h
        | some b =>
          cases hT : env.truncateOk with
          | false =>
            rw [processTokenResponse_truncateError lib env s resp body b tr hs hB hU hM hT] at h
            simp at h
          | true =>
            cases hW : env.writeErr with
            | true =>
              rw [processTokenResponse_writeError lib env s resp body b tr hs hB hU hM hT hW]
              exact ⟨body, tr, b, rfl, hU, hM, rfl⟩
            | false =>
              by_cases hn : b.length ≤ env.written
              · rw [processTokenResponse_written lib env s resp body b tr hs hB hU hM hT hW hn]
                  at h
                simp at h
              · rw [processTokenResponse_shortWrite lib env s resp body b tr hs hB hU hM hT hW
                  (by omega)]
                exact ⟨body, tr, b, rfl, hU, hM, rfl⟩
  · rw [processTokenResponse_badStatus lib env s resp hs] at h
    simp at h

/-- A `Refresh` that fails with a write error or a short write: the response
it got, the encoding it tried to write, and what is left in the file. -/
theorem Refresh_write_failed (lib : Lib) (env : Env) (s : AuthService) (tok : String)
    (h : (Refresh lib env s tok).err = some Err.writeTokens ∨
      (Refresh lib env s tok).err = some Err.shortWriteTokens) :
    ∃ resp body tr b, env.send (refreshRequest s tok) = some resp ∧ resp.Body = some body ∧
      lib.UnmarshalResponse body = some tr ∧ lib.Marshal (persisted env.now tr) = some b ∧
      (Refresh lib env s tok).svc.f.data = writeAt [] s.f.pos (b.take env.written) := by
  rcases Refresh_cases lib env s tok with ⟨e, he1, he2, h1⟩ | ⟨resp, _, hr, h1⟩
  · rw [h1] at h
    rcases h with h | h
    · exact absurd (Option.some.inj h) he1
    · exact absurd (Option.some.inj h) he2
  · rw [h1] at h ⊢
    obtain ⟨body, tr, b, hB, hU, hM, hd⟩ := processTokenResponse_write_failed lib env s resp h
    exact ⟨resp, body, tr, b, hr, hB, hU, hM, hd⟩

/-- A `Register` that fails with a write error or a short write: the response
it got, the encoding it tried to write, and what is left in the file. -/
theorem Register_write_failed (lib : Lib) (env : Env) (s : AuthService) (otp : String)
    (h : (Register lib env s otp).err = some Err.writeTokens ∨
      (Register lib env s otp).err = some Err.shortWriteTokens) :
    ∃ resp body tr b, httpPost lib env (registerUri s.marketUri otp) = some resp ∧
      resp.Body = some body ∧ lib.UnmarshalResponse body = some tr ∧
      lib.Marshal (persisted env.now tr) = some b ∧
      (Register lib env s otp).svc.f.data = writeAt [] s.f.pos (b.take env.written) := by
  cases hp : httpPost lib env (registerUri s.marketUri otp) with
  | none =>
    rw [Register_of_no_response lib env s otp hp] at h
    simp at h
  | some resp =>
    rw [Register_of_response lib env s otp resp hp] at h ⊢
    obtain ⟨body, tr, b, hB, hU, hM, hd⟩ := processTokenResponse_write_failed lib env s resp h
    exact ⟨resp, body, tr, b, rfl, hB, hU, hM, hd⟩

/-! ## C7: when Register and Refresh succeed -/

/-- C7. `processTokenResponse` returns without error exactly when the status
is 200, the body is read and decodes as a `TokensResponse`, the pair built
from it is encoded, and truncating the file and writing the whole encoding
both succeed; in every other case it returns an error with the zero
`Tokens`. `Register` and `Refresh` return what `processTokenResponse`
returns on the response they receive, and an error with the zero `Tokens`
when they receive none. -/
theorem processTokenResponse_succeeds_iff (lib : Lib) (env : Env) (s : AuthService)
    (otp refreshToken : String) :
    (∀ resp, (processTokenResponse lib env s resp).err = none ↔
      resp.StatusCode = 200 ∧ ∃ body tr b, resp.Body = some body ∧
        lib.UnmarshalResponse body = some tr ∧ lib.Marshal (persisted env.now tr) = some b ∧
        env.truncateOk = true ∧ env.writeErr = false ∧ b.length ≤ env.written) ∧
    (∀ resp, (processTokenResponse lib env s resp).err ≠ none →
      (processTokenResponse lib env s resp).tokens = Tokens.zero) ∧
    ((Register lib env s otp).err = none ↔
      ∃ resp, httpPost lib env (registerUri s.marketUri otp) = some resp ∧
        Register lib env s otp = processTokenResponse lib env s resp ∧
        (processTokenResponse lib env s resp).err = none) ∧
    ((Register lib env s otp).err ≠ none → (Register lib env s otp).tokens = Tokens.zero) ∧
    ((Refresh lib env s refreshToken).err = none ↔
      ∃ resp, lib.validURL (refreshUri s.marketUri) = true ∧
        env.send (refreshRequest s refreshToken) = some resp ∧
        Refresh lib env s refreshToken = processTokenResponse lib env s resp ∧
        (processTokenResponse lib env s resp).err = none) ∧
    ((Refresh lib env s refreshToken).err ≠ none →
      (Refresh lib env s refreshToken).tokens = Tokens.zero) ∧
    ((Register lib env s otp).err = none ↔
      ∃ resp, httpPost lib env (registerUri s.marketUri otp) = some resp ∧
        (processTokenResponse lib env s resp).err = none) ∧
    (∀ resp, httpPost lib env (registerUri s.marketUri otp) = some resp →
      Register lib env s otp = processTokenResponse lib env s resp) ∧
    ((Refresh lib env s refreshToken).err = none ↔
      ∃ resp, lib.validURL (refreshUri s.marketUri) = true ∧
        env.send (refreshRequest s refreshToken) = some resp ∧
        (processTokenResponse lib env s resp).err = none) ∧
    (∀ resp, lib.validURL (refreshUri s.marketUri) = true →
      env.send (refreshRequest s refreshToken) = some resp →
      Refresh lib env s refreshToken = processTokenResponse lib env s resp) := by
  refine ⟨processTokenResponse_err_none_iff lib env s, processTokenResponse_err_zero lib env s,
    ?_, ?_, ?_, ?_, ?_, fun resp h => Register_of_response lib env s otp resp h, ?_,
    fun resp hv h => Refresh_of_response lib env s refreshToken resp hv h⟩
  · cases h : httpPost lib env (registerUri s.marketUri otp) with
    | none => simp [Register_of_no_response lib env s otp h]
    | some resp =>
      rw [Register_of_response lib env s otp resp h]
      constructor
      · intro h1
        exact ⟨resp, rfl, rfl, h1⟩
      · rintro ⟨r, hr, _, h1⟩
        cases hr
        exact h1
  · cases h : httpPost lib env (registerUri s.marketUri otp) with
    | none => simp [Register_of_no_response lib env s otp h]
    | some resp =>
      rw [Register_of_response lib env s otp resp h]
      exact processTokenResponse_err_zero lib env s resp
  · rcases Refresh_cases lib env s refreshToken with ⟨e, _, _, h⟩ | ⟨resp, hv, hr, h⟩
    · constructor
      · intro h1
        rw [h] at h1
        exact absurd h1 (by simp)
      · rintro ⟨r, _, _, h2, h3⟩
        rw [h2]
        exact h3
    · constructor
      · intro h1
        exact ⟨resp, hv, hr, h, h ▸ h1⟩
      · rintro ⟨r, _, _, h2, h3⟩
        rw [h2]
        exact h3
  · rcases Refresh_cases lib env s refreshToken with ⟨e, _, _, h⟩ | ⟨resp, hv, hr, h⟩
    · rw [h]
      intro _
      rfl
    · rw [h]
      exact processTokenResponse_err_zero lib env s resp
  · cases h : httpPost lib env (registerUri s.marketUri otp) with
    | none => simp [Register_of_no_response lib env s otp h]
    | some resp =>
      rw [Register_of_response lib env s otp resp h]
      constructor
      · intro h1
        exact ⟨resp, rfl, h1⟩
      · rintro ⟨r, hr, h1⟩
        cases hr
        exact h1
  · rcases Refresh_cases lib env s refreshToken with ⟨e, _, _, h⟩ | ⟨resp, hv, hr, h⟩
    · constructor
      · intro h1
        rw [h] at h1
        exact absurd h1 (by simp)
      · rintro ⟨r, hv2, hr2, h3⟩
        rw [Refresh_of_response lib env s refreshToken r hv2 hr2]
        exact h3
    · rw [h]
      constructor
      · intro h1
        exact ⟨resp, hv, hr, h1⟩
      · rintro ⟨r, _, hr2, h3⟩
        rw [hr] at hr2
        cases hr2
        exact h3

/-! ## C1: the file after a write through a handle that has written before -/

/-- A successful call through a handle at offset 0 leaves exactly the
encoding of the returned pair in the file. -/
theorem processTokenResponse_file_at_start (lib : Lib) (env : Env) (s : AuthService)
    (resp : Response) (h : (processTokenResponse lib env s resp).err = none)
    (hpos : s.f.pos = 0) :
    lib.Marshal (processTokenResponse lib env s resp).tokens =
      some (processTokenResponse lib env s resp).svc.f.data := by
  rcases processTokenResponse_cases lib env s resp with
    ⟨e, _, _, h1⟩ | ⟨e, f, _, h1⟩ | ⟨body, tr, b, _, _, _, hM, _, _, _, h1⟩
  · rw [h1] at h
    exact absurd h (by simp)
  · rw [h1] at h
    exact absurd h (by simp)
  · rw [h1]
    simp [hpos, writeAt_zero, hM]

/-- C1. `f.Truncate(0)` does not move the offset of the handle, so a
successful `processTokenResponse` on a service whose handle has already
written (offset `p > 0`) leaves `p` zero bytes followed by the encoding of
the returned pair in the file, which is not that encoding. -/
theorem processTokenResponse_file_after_write (lib : Lib) (env : Env) (s : AuthService)
    (resp : Response) (b : Bytes) (h : (processTokenResponse lib env s resp).err = none)
    (hM : lib.Marshal (processTokenResponse lib env s resp).tokens = some b) (hb : b ≠ [])
    (hpos : 0 < s.f.pos) :
    (processTokenResponse lib env s resp).svc.f.data = List.replicate s.f.pos 0 ++ b ∧
      (processTokenResponse lib env s resp).svc.f.data ≠ b := by
  rcases processTokenResponse_cases lib env s resp with
    ⟨e, _, _, h1⟩ | ⟨e, f, _, h1⟩ | ⟨body, tr, b1, _, _, _, hM1, _, _, _, h1⟩
  · rw [h1] at h
    exact absurd h (by simp)
  · rw [h1] at h
    exact absurd h (by simp)
  · rw [h1] at hM ⊢
    have hbb : b1 = b := by
      simp only [hM1] at hM
      exact Option.some.inj hM
    subst hbb
    have hd : writeAt [] s.f.pos b1 = List.replicate s.f.pos 0 ++ b1 := writeAt_gap _ _ hb
    refine ⟨hd, ?_⟩
    show writeAt [] s.f.pos b1 ≠ b1
    rw [hd]
    intro hEq
    have hl := congrArg List.length hEq
    simp at hl
    omega

set_option maxRecDepth 100000 in
/-- C1, at a concrete input: a service created on an empty token file
registers at noon and refreshes half an hour later. Both calls succeed; the
file then holds 63 zero bytes before the encoding of the second pair, and
`New` on that file fails. -/
theorem processTokenResponse_file_after_write_witness :
    New Sample.lib (Sample.machine []) Sample.marketUri Sample.workingDir = .ok Sample.fresh ∧
    Register Sample.lib (Sample.env Sample.noon) Sample.fresh "123456" =
      { tokens := Sample.pair1, err := none, svc := Sample.registered } ∧
    Refresh Sample.lib (Sample.env Sample.halfPast) Sample.registered "r1" =
      processTokenResponse Sample.lib (Sample.env Sample.halfPast) Sample.registered
        { StatusCode := 200, Body := some Sample.body2 } ∧
    (processTokenResponse Sample.lib (Sample.env Sample.halfPast) Sample.registered
        { StatusCode := 200, Body := some Sample.body2 }).tokens = Sample.pair2 ∧
    Sample.lib.Marshal Sample.pair2 = some Sample.file2 ∧
    ((processTokenResponse Sample.lib (Sample.env Sample.halfPast) Sample.registered
        { StatusCode := 200, Body := some Sample.body2 }).svc.f.data =
          List.replicate Sample.registered.f.pos 0 ++ Sample.file2 ∧
      (processTokenResponse Sample.lib (Sample.env Sample.halfPast) Sample.registered
        { StatusCode := 200, Body := some Sample.body2 }).svc.f.data ≠ Sample.file2) ∧
    New Sample.lib (Sample.machine (List.replicate 63 0 ++ Sample.file2)) Sample.marketUri
      Sample.workingDir = .error .unmarshalTokens :=
  ⟨rfl, by decide, by decide, by decide, by decide,
    processTokenResponse_file_after_write Sample.lib (Sample.env Sample.halfPast)
      Sample.registered { StatusCode := 200, Body := some Sample.body2 } Sample.file2
      (by decide) (by decide) (by decide) (by decide),
    rfl⟩

/-! ## C8: the expiry of the pair built from a response -/

/-- The pair copies the two tokens of the response. -/
theorem persisted_copies (now : Int) (tr : TokensResponse) :
    (persisted now tr).Access = tr.Access ∧ (persisted now tr).Refresh = tr.Refresh :=
  ⟨rfl, rfl⟩

/-- When the number of seconds fits a Duration, the pair expires that many
seconds after the clock reading. -/
theorem persisted_expires (now : Int) (tr : TokensResponse) (h1 : -9223372036 ≤ tr.TTL)
    (h2 : tr.TTL ≤ 9223372036) : (persisted now tr).Expires = now + tr.TTL * Second := by
  simp only [persisted, timeAdd]
  rw [wrap64_seconds tr.TTL h1 h2]

set_option maxRecDepth 100000 in
/-- C8. A 200 response with `ttl = 9223372037` processed at noon: the call
succeeds, the tokens are copied, and the product of the ttl with
`time.Second` wraps around, so the returned `Expires` is
9223372036.709551616 seconds before noon instead of 9223372037 seconds
after it. -/
theorem processTokenResponse_expires_wraps :
    Sample.lib.UnmarshalResponse Sample.body3 =
      some { Access := "a3", Refresh := "r3", TTL := 9223372037 } ∧
    (processTokenResponse Sample.lib (Sample.env Sample.noon) Sample.fresh
      { StatusCode := 200, Body := some Sample.body3 }).err = none ∧
    (processTokenResponse Sample.lib (Sample.env Sample.noon) Sample.fresh
      { StatusCode := 200, Body := some Sample.body3 }).tokens =
        { Access := "a3", Refresh := "r3", Expires := Sample.noon - 9223372036709551616 } ∧
    (processTokenResponse Sample.lib (Sample.env Sample.noon) Sample.fresh
      { StatusCode := 200, Body := some Sample.body3 }).tokens.Expires <
        Sample.noon + 9223372037 * Second := by
  refine ⟨by decide, by decide, by decide, by decide⟩

/-! ## C2: Register writes the file and leaves the pair in memory -/

/-- What `New` gives: the handle is at offset 0 and the channel is made. -/
theorem New_ok (lib : Lib) (os : OS) (marketUri workingDir : String) (s : AuthService)
    (h : New lib os marketUri workingDir = .ok s) : s.f.pos = 0 ∧ s.quit = .made := by
  unfold New at h
  dsimp only at h
  repeat' (split at h <;> try dsimp only at h)
  all_goals first
    | (cases h; exact ⟨rfl, rfl⟩)
    | exact absurd h (by simp)

/-- After `AccessToken` the request has one more Authorization value. -/
theorem AccessToken_values (s : AuthService) (req : Request) :
    (AccessToken s req).Header.Values "Authorization" =
      req.Header.Values "Authorization" ++ ["Bearer " ++ s.tokens.Access] := by
  simp [AccessToken, Header.Values_Add]

set_option maxRecDepth 100000 in
/-- C2 fails as stated: on a service created on an empty token file,
`Register("123456")` succeeds on the body `{a1, r1, 3600}` and returns the
pair, yet the pair in memory is still the zero pair and `AccessToken` on that
service adds the value "Bearer " with no token. -/
theorem Register_then_AccessToken_without_token :
    New Sample.lib (Sample.machine []) Sample.marketUri Sample.workingDir = .ok Sample.fresh ∧
    (Register Sample.lib (Sample.env Sample.noon) Sample.fresh "123456").err = none ∧
    (Register Sample.lib (Sample.env Sample.noon) Sample.fresh "123456").tokens = Sample.pair1 ∧
    (Register Sample.lib (Sample.env Sample.noon) Sample.fresh "123456").svc.tokens =
      Tokens.zero ∧
    (AccessToken (Register Sample.lib (Sample.env Sample.noon) Sample.fresh "123456").svc
      Sample.request).Header = [("Authorization", ["Bearer "])] :=
  ⟨rfl, by decide, by decide, by decide, by decide⟩

/-- C2, amended. On a service just created by `New`, when `Register(otp)`
succeeds on a response whose body decodes to `{a, r, n}`, with `n` seconds
fitting a Duration: the returned pair is `a`, `r`, now + n seconds; the token
file holds exactly its encoding; the pair in memory is the one `New` loaded;
and `AccessToken` on that service adds "Bearer " followed by the access token
`New` loaded. -/
theorem Register_writes_file_only (lib : Lib) (os : OS) (marketUri workingDir otp : String)
    (env : Env) (s : AuthService) (resp : Response) (body : Bytes) (a r : String) (n : Int)
    (hNew : New lib os marketUri workingDir = .ok s)
    (hResp : httpPost lib env (registerUri s.marketUri otp) = some resp)
    (hBody : resp.Body = some body)
    (hDecode : lib.UnmarshalResponse body = some { Access := a, Refresh := r, TTL := n })
    (hlo : -9223372036 ≤ n) (hhi : n ≤ 9223372036)
    (hOk : (Register lib env s otp).err = none) :
    (Register lib env s otp).tokens = { Access := a, Refresh := r, Expires := env.now + n * Second } ∧
    lib.Marshal (Register lib env s otp).tokens = some (Register lib env s otp).svc.f.data ∧
    (Register lib env s otp).svc.tokens = s.tokens ∧
    ∀ req, (AccessToken (Register lib env s otp).svc req).Header.Values "Authorization" =
      req.Header.Values "Authorization" ++ ["Bearer " ++ s.tokens.Access] := by
  rw [Register_of_response lib env s otp resp hResp] at hOk ⊢
  have hfile := processTokenResponse_file_at_start lib env s resp hOk
    (New_ok lib os marketUri workingDir s hNew).1
  have htok := processTokenResponse_tokens_unchanged lib env s resp
  refine ⟨?_, hfile, htok, ?_⟩
  · rcases processTokenResponse_cases lib env s resp with
      ⟨e, _, _, h1⟩ | ⟨e, f, _, h1⟩ | ⟨body1, tr, b, _, hB, hU, _, _, _, _, h1⟩
    · rw [h1] at hOk
      exact absurd hOk (by simp)
    · rw [h1] at hOk
      exact absurd hOk (by simp)
    · rw [h1]
      rw [hBody] at hB
      cases hB
      rw [hDecode] at hU
      cases hU
      have he := persisted_expires env.now { Access := a, Refresh := r, TTL := n } hlo hhi
      simp only [persisted] at he ⊢
      rw [he]
  · intro req
    rw [AccessToken_values, htok]

set_option maxRecDepth 100000 in
/-- C2, amended, at the input of the claim: otp "123456", body `{a1, r1, 3600}`. -/
theorem Register_writes_file_only_witness :
    (Register Sample.lib (Sample.env Sample.noon) Sample.fresh "123456").tokens =
      { Access := "a1", Refresh := "r1", Expires := (Sample.env Sample.noon).now + 3600 * Second } ∧
    Sample.lib.Marshal (Register Sample.lib (Sample.env Sample.noon) Sample.fresh "123456").tokens =
      some (Register Sample.lib (Sample.env Sample.noon) Sample.fresh "123456").svc.f.data ∧
    (Register Sample.lib (Sample.env Sample.noon) Sample.fresh "123456").svc.tokens =
      Sample.fresh.tokens ∧
    ∀ req, (AccessToken (Register Sample.lib (Sample.env Sample.noon) Sample.fresh "123456").svc
        req).Header.Values "Authorization" =
      req.Header.Values "Authorization" ++ ["Bearer " ++ Sample.fresh.tokens.Access] :=
  Register_writes_file_only Sample.lib (Sample.machine []) Sample.marketUri Sample.workingDir
    "123456" (Sample.env Sample.noon) Sample.fresh { StatusCode := 200, Body := some Sample.body1 }
    Sample.body1 "a1" "r1" 3600 rfl (by decide) (by decide) (by decide) (by decide) (by decide)
    (by decide)

/-! ## C3: what a failed Refresh leaves behind -/

set_option maxRecDepth 100000 in
/-- C3 fails as stated: on a service whose token file holds the 63 bytes of
a stored pair, a `Refresh` whose write fails returns an error after the file
was truncated, and the file is left empty. -/
theorem Refresh_write_error_empties_file :
    (Refresh Sample.lib (Sample.envWriteFails Sample.halfPast 0) Sample.loaded "r1").err =
      some Err.writeTokens ∧
    Sample.loaded.f.data = Sample.file1 ∧
    (Refresh Sample.lib (Sample.envWriteFails Sample.halfPast 0) Sample.loaded "r1").svc.f.data =
      [] :=
  ⟨by decide, rfl, by decide⟩

/-- C3, amended. After a `Refresh` call that returns an error the pair in
memory is the same as before the call. Unless the error is a write error or
a short write, the token file, contents and offset, is the same too. A write
error or a short write comes after the file was truncated: through a handle
at offset 0 the file then holds exactly the bytes of the encoding of the new
pair that the write accepted. -/
theorem Refresh_error_keeps_state (lib : Lib) (env : Env) (s : AuthService)
    (refreshToken : String) (h : (Refresh lib env s refreshToken).err ≠ none) :
    (Refresh lib env s refreshToken).svc.tokens = s.tokens ∧
    ((Refresh lib env s refreshToken).err ≠ some Err.writeTokens →
      (Refresh lib env s refreshToken).err ≠ some Err.shortWriteTokens →
      (Refresh lib env s refreshToken).svc.f = s.f) ∧
    ((Refresh lib env s refreshToken).err = some Err.writeTokens ∨
        (Refresh lib env s refreshToken).err = some Err.shortWriteTokens →
      s.f.pos = 0 →
      ∃ resp body tr b, env.send (refreshRequest s refreshToken) = some resp ∧
        resp.Body = some body ∧ lib.UnmarshalResponse body = some tr ∧
        lib.Marshal (persisted env.now tr) = some b ∧
        (Refresh lib env s refreshToken).svc.f.data = b.take env.written) := by
  refine ⟨Refresh_tokens_unchanged lib env s refreshToken, ?_, ?_⟩
  · rcases Refresh_cases lib env s refreshToken with ⟨e, _, _, h1⟩ | ⟨resp, _, _, h1⟩
    · intro _ _
      rw [h1]
    · rw [h1] at h ⊢
      intro hw hsw
      rw [processTokenResponse_err_svc lib env s resp h hw hsw]
  · intro hw hpos
    obtain ⟨resp, body, tr, b, hr, hB, hU, hM, hd⟩ :=
      Refresh_write_failed lib env s refreshToken hw
    rw [hpos, writeAt_zero] at hd
    exact ⟨resp, body, tr, b, hr, hB, hU, hM, hd⟩

set_option maxRecDepth 100000 in
/-- C3, amended, at concrete inputs. The market answers 500 to a refresh
with an unknown token: pair and file are as before. The disk takes 10 bytes
and then fails: the pair is as before and the file holds the first 10 bytes
of the new encoding. -/
theorem Refresh_error_keeps_state_witness :
    (Refresh Sample.lib (Sample.env Sample.halfPast) Sample.loaded "r9").err =
      some (Err.invalidResponseCode 500) ∧
    (Refresh Sample.lib (Sample.env Sample.halfPast) Sample.loaded "r9").svc.tokens =
      Sample.loaded.tokens ∧
    (Refresh Sample.lib (Sample.env Sample.halfPast) Sample.loaded "r9").svc.f =
      Sample.loaded.f ∧
    (Refresh Sample.lib (Sample.envWriteFails Sample.halfPast 10) Sample.loaded "r1").err =
      some Err.writeTokens ∧
    (Refresh Sample.lib (Sample.envWriteFails Sample.halfPast 10) Sample.loaded "r1").svc.tokens =
      Sample.loaded.tokens ∧
    (Refresh Sample.lib (Sample.envWriteFails Sample.halfPast 10) Sample.loaded "r1").svc.f.data =
      Sample.file2.take 10 ∧
    ∃ resp body tr b,
      (Sample.envWriteFails Sample.halfPast 10).send (refreshRequest Sample.loaded "r1") =
        some resp ∧
      resp.Body = some body ∧ Sample.lib.UnmarshalResponse body = some tr ∧
      Sample.lib.Marshal (persisted (Sample.envWriteFails Sample.halfPast 10).now tr) = some b ∧
      (Refresh Sample.lib (Sample.envWriteFails Sample.halfPast 10) Sample.loaded
        "r1").svc.f.data = b.take (Sample.envWriteFails Sample.halfPast 10).written :=
  ⟨by decide,
    (Refresh_error_keeps_state Sample.lib (Sample.env Sample.halfPast) Sample.loaded "r9"
      (by decide)).1,
    (Refresh_error_keeps_state Sample.lib (Sample.env Sample.halfPast) Sample.loaded "r9"
      (by decide)).2.1 (by decide) (by decide),
    by decide,
    (Refresh_error_keeps_state Sample.lib (Sample.envWriteFails Sample.halfPast 10)
      Sample.loaded "r1" (by decide)).1,
    by decide,
    (Refresh_error_keeps_state Sample.lib (Sample.envWriteFails Sample.halfPast 10)
      Sample.loaded "r1" (by decide)).2.2 (Or.inl (by decide)) rfl⟩

/-! ## C6: Verify -/

theorem Verify_of_response (lib : Lib) (env : Env) (s : AuthService) (accessToken : String)
    (resp : Response) (hv : lib.validURL (verifyUri s.marketUri) = true)
    (h : env.send (verifyRequest s accessToken) = some resp) :
    Verify lib env s accessToken =
      (if resp.StatusCode ≠ 200 then some Err.ValidationError else none, s) := by
  simp [verifyRequest, Header.Add] at h
  by_cases hs : resp.StatusCode = 200 <;> simp [Verify, hv, Header.Add, h, hs]

/-- The service is the same after `Verify` as before. -/
theorem Verify_svc (lib : Lib) (env : Env) (s : AuthService) (accessToken : String) :
    (Verify lib env s accessToken).2 = s := by
  unfold Verify
  dsimp only
  repeat' (split <;> try dsimp only)

/-- C6. Whatever the response to the verify request: a status other than
200 makes `Verify` return the `ValidationError` sentinel itself, the status
200 makes it return nil, and in both cases the service (pair in memory and
token file) is as before. -/
theorem Verify_maps_status (lib : Lib) (env : Env) (s : AuthService) (accessToken : String)
    (resp : Response) (hv : lib.validURL (verifyUri s.marketUri) = true)
    (h : env.send (verifyRequest s accessToken) = some resp) :
    (resp.StatusCode ≠ 200 → (Verify lib env s accessToken).1 = some Err.ValidationError) ∧
    (resp.StatusCode = 200 → (Verify lib env s accessToken).1 = none) ∧
    (Verify lib env s accessToken).2 = s := by
  rw [Verify_of_response lib env s accessToken resp hv h]
  refine ⟨fun hs => by simp [hs], fun hs => by simp [hs], rfl⟩

set_option maxRecDepth 100000 in
/-- C6 at a concrete input: the market answers 401 to the token "zz". -/
theorem Verify_maps_status_witness :
    (Verify Sample.lib (Sample.env Sample.noon) Sample.loaded "zz").1 =
      some Err.ValidationError ∧
    (Verify Sample.lib (Sample.env Sample.noon) Sample.loaded "zz").2 = Sample.loaded :=
  ⟨(Verify_maps_status Sample.lib (Sample.env Sample.noon) Sample.loaded "zz"
      { StatusCode := 401, Body := some [] } (by decide) (by decide)).1 (by decide),
    (Verify_maps_status Sample.lib (Sample.env Sample.noon) Sample.loaded "zz"
      { StatusCode := 401, Body := some [] } (by decide) (by decide)).2.2⟩

/-! ## C4 and C5: one cycle of PollRefresh -/

/-- A cycle in which no refresh is due. -/
theorem pollCycle_not_due (lib : Lib) (env : Env) (clock : Int) (s : AuthService)
    (h : refreshThreshold < s.tokens.Expires - clock) :
    pollCycle lib env clock s =
      (s, Event.Verify s.tokens.Access ::
        (match (Verify lib env s s.tokens.Access).1 with
          | some e => [Event.Warn e]
          | none => [])) := by
  have hd : ¬ timeUntil clock s.tokens.Expires ≤ refreshThreshold := by
    rw [timeUntil, saturate64_le_refreshThreshold]
    omega
  unfold pollCycle
  rw [if_neg hd]
  dsimp only
  rw [Verify_svc]
  split <;> simp_all

/-- A cycle in which the refresh that is due fails. -/
theorem pollCycle_refresh_failed (lib : Lib) (env : Env) (clock : Int) (s : AuthService) (e : Err)
    (h : s.tokens.Expires - clock ≤ refreshThreshold)
    (he : (Refresh lib env s s.tokens.Refresh).err = some e) :
    pollCycle lib env clock s =
      ((Refresh lib env s s.tokens.Refresh).svc,
        [Event.Refresh s.tokens.Refresh, Event.Warn e]) := by
  have hd : timeUntil clock s.tokens.Expires ≤ refreshThreshold := by
    rw [timeUntil, saturate64_le_refreshThreshold]
    exact h
  unfold pollCycle
  rw [if_pos hd]
  dsimp only
  rw [he]

/-- A cycle in which the refresh that is due succeeds. -/
theorem pollCycle_refreshed (lib : Lib) (env : Env) (clock : Int) (s : AuthService)
    (h : s.tokens.Expires - clock ≤ refreshThreshold)
    (he : (Refresh lib env s s.tokens.Refresh).err = none) :
    pollCycle lib env clock s =
      ({ (Refresh lib env s s.tokens.Refresh).svc with
          tokens := (Refresh lib env s s.tokens.Refresh).tokens },
        Event.Refresh s.tokens.Refresh ::
        Event.Verify (Refresh lib env s s.tokens.Refresh).tokens.Access ::
        (match (Verify lib env
            { (Refresh lib env s s.tokens.Refresh).svc with
              tokens := (Refresh lib env s s.tokens.Refresh).tokens }
            (Refresh lib env s s.tokens.Refresh).tokens.Access).1 with
          | some e => [Event.Warn e]
          | none => [])) := by
  have hd : timeUntil clock s.tokens.Expires ≤ refreshThreshold := by
    rw [timeUntil, saturate64_le_refreshThreshold]
    exact h
  unfold pollCycle
  rw [if_pos hd]
  dsimp only
  rw [he]
  dsimp only
  rw [Verify_svc]
  split <;> simp_all

set_option maxRecDepth 100000 in
/-- C4 fails as stated: at a quarter to one the stored pair expires within
the threshold and the market cannot be reached; the cycle calls `Refresh`,
logs the error and ends, without any call of `Verify`. -/
theorem pollCycle_failed_refresh_skips_verify :
    pollCycle Sample.lib (Sample.offline Sample.quarterTo) Sample.quarterTo Sample.loaded =
      (Sample.loaded, [Event.Refresh "r1", Event.Warn Err.getVerify]) := by
  decide

/-- C4, amended. In a cycle that passed the cancellation check: when no
refresh is due, `Verify` is called with the access token in memory, and with
no other; when the refresh that is due succeeds, the returned pair becomes
the pair in memory and `Verify` is called with its access token, and with no
other; when the refresh that is due fails, the cycle ends at `continue` and
`Verify` is not called. -/
theorem pollCycle_verify (lib : Lib) (env : Env) (clock : Int) (s : AuthService) :
    (refreshThreshold < s.tokens.Expires - clock →
      ∀ tok, Event.Verify tok ∈ (pollCycle lib env clock s).2 ↔ tok = s.tokens.Access) ∧
    (s.tokens.Expires - clock ≤ refreshThreshold →
      (Refresh lib env s s.tokens.Refresh).err = none →
      (pollCycle lib env clock s).1.tokens = (Refresh lib env s s.tokens.Refresh).tokens ∧
      ∀ tok, Event.Verify tok ∈ (pollCycle lib env clock s).2 ↔
        tok = (Refresh lib env s s.tokens.Refresh).tokens.Access) ∧
    (s.tokens.Expires - clock ≤ refreshThreshold →
      (Refresh lib env s s.tokens.Refresh).err ≠ none →
      ∀ tok, Event.Verify tok ∉ (pollCycle lib env clock s).2) := by
  refine ⟨?_, ?_, ?_⟩
  · intro h tok
    rw [pollCycle_not_due lib env clock s h]
    cases (Verify lib env s s.tokens.Access).1 <;> simp
  · intro h he
    rw [pollCycle_refreshed lib env clock s h he]
    refine ⟨rfl, fun tok => ?_⟩
    dsimp only
    split <;> simp
  · intro h he tok
    cases hr : (Refresh lib env s s.tokens.Refresh).err with
    | none => exact absurd hr he
    | some e =>
      rw [pollCycle_refresh_failed lib env clock s e h hr]
      simp

/-- C5. A cycle calls `Refresh` exactly when `Expires - now` is at most
`refreshThreshold`, and the argument of the call is the refresh token of the
pair in memory; when `Expires - now` exceeds the threshold the cycle makes no
`Refresh` call. -/
theorem pollCycle_refresh_iff (lib : Lib) (env : Env) (clock : Int) (s : AuthService)
    (tok : String) :
    Event.Refresh tok ∈ (pollCycle lib env clock s).2 ↔
      s.tokens.Expires - clock ≤ refreshThreshold ∧ tok = s.tokens.Refresh := by
  by_cases h : s.tokens.Expires - clock ≤ refreshThreshold
  · cases hr : (Refresh lib env s s.tokens.Refresh).err with
    | none =>
      rw [pollCycle_refreshed lib env clock s h hr]
      dsimp only
      split <;> simp [h]
    | some e =>
      rw [pollCycle_refresh_failed lib env clock s e h hr]
      simp [h]
  · rw [pollCycle_not_due lib env clock s (by omega)]
    cases (Verify lib env s s.tokens.Access).1 <;> simp [h]

/-! ## C9: AccessToken called repeatedly -/

set_option maxRecDepth 100000 in
/-- C9 fails as stated: `Header.Add` appends, so two calls leave two values
where one call leaves one. -/
theorem AccessToken_twice_two_values :
    (AccessToken Sample.loaded Sample.request).Header = [("Authorization", ["Bearer a1"])] ∧
    (AccessToken Sample.loaded (AccessToken Sample.loaded Sample.request)).Header =
      [("Authorization", ["Bearer a1", "Bearer a1"])] :=
  ⟨by decide, by decide⟩

/-- C9, amended. Every `AccessToken` call appends the same value, "Bearer "
followed by the access token in memory, to the Authorization values of the
request: after `k` calls with no change to the pair the request carries `k`
more copies of that value. -/
theorem AccessToken_iterate (s : AuthService) (req : Request) (k : Nat) :
    ((AccessToken s)^[k] req).Header.Values "Authorization" =
      req.Header.Values "Authorization" ++ List.replicate k ("Bearer " ++ s.tokens.Access) := by
  induction k generalizing req with
  | zero => simp
  | succ k ih =>
    rw [Function.iterate_succ_apply, ih, AccessToken_values, List.append_assoc]
    rfl

/-! ## C10: Close -/

/-- C10 fails as stated: the first `Close` on a new service closes the
channel, the second panics. -/
theorem Close_twice_panics :
    Close Sample.fresh = .ok { Sample.fresh with quit := Chan.closed } ∧
    Close { Sample.fresh with quit := Chan.closed } = .error Panic.closeOfClosedChannel :=
  ⟨rfl, rfl⟩

/-- C10, amended. On a service created by `New` the first `Close` closes the
quit channel and changes nothing else; `Close` on the service so obtained
panics with "close of closed channel". -/
theorem Close_once (lib : Lib) (os : OS) (marketUri workingDir : String) (s : AuthService)
    (h : New lib os marketUri workingDir = .ok s) :
    Close s = .ok { s with quit := Chan.closed } ∧
    Close { s with quit := Chan.closed } = .error Panic.closeOfClosedChannel := by
  have hq := (New_ok lib os marketUri workingDir s h).2
  refine ⟨?_, rfl⟩
  unfold Close
  rw [hq]

/-- C10, amended, on the service `New` gives for a token file holding a pair. -/
theorem Close_once_witness :
    Close Sample.loaded = .ok { Sample.loaded with quit := Chan.closed } ∧
    Close { Sample.loaded with quit := Chan.closed } = .error Panic.closeOfClosedChannel :=
  Close_once Sample.lib (Sample.machine Sample.file1) Sample.marketUri Sample.workingDir
    Sample.loaded rfl

/-! ## C11: the pair in memory after a cycle -/

/-- C11. After a cycle the pair in memory is, in all three fields, the pair
it was before the cycle when no refresh was due or the refresh failed, and
the pair returned by `Refresh` when the refresh succeeded; so it is always
one of the two whole pairs. -/
theorem pollCycle_tokens (lib : Lib) (env : Env) (clock : Int) (s : AuthService) :
    (refreshThreshold < s.tokens.Expires - clock →
      (pollCycle lib env clock s).1.tokens = s.tokens) ∧
    (s.tokens.Expires - clock ≤ refreshThreshold →
      (Refresh lib env s s.tokens.Refresh).err ≠ none →
      (pollCycle lib env clock s).1.tokens = s.tokens) ∧
    (s.tokens.Expires - clock ≤ refreshThreshold →
      (Refresh lib env s s.tokens.Refresh).err = none →
      (pollCycle lib env clock s).1.tokens = (Refresh lib env s s.tokens.Refresh).tokens) ∧
    ((pollCycle lib env clock s).1.tokens = s.tokens ∨
      (pollCycle lib env clock s).1.tokens = (Refresh lib env s s.tokens.Refresh).tokens) := by
  have hA : refreshThreshold < s.tokens.Expires - clock →
      (pollCycle lib env clock s).1.tokens = s.tokens := by
    intro h
    rw [pollCycle_not_due lib env clock s h]
  have hB : s.tokens.Expires - clock ≤ refreshThreshold →
      (Refresh lib env s s.tokens.Refresh).err ≠ none →
      (pollCycle lib env clock s).1.tokens = s.tokens := by
    intro h he
    cases hr : (Refresh lib env s s.tokens.Refresh).err with
    | none => exact absurd hr he
    | some e =>
      rw [pollCycle_refresh_failed lib env clock s e h hr]
      exact Refresh_tokens_unchanged lib env s s.tokens.Refresh
  have hC : s.tokens.Expires - clock ≤ refreshThreshold →
      (Refresh lib env s s.tokens.Refresh).err = none →
      (pollCycle lib env clock s).1.tokens = (Refresh lib env s s.tokens.Refresh).tokens := by
    intro h he
    rw [pollCycle_refreshed lib env clock s h he]
  refine ⟨hA, hB, hC, ?_⟩
  by_cases h : s.tokens.Expires - clock ≤ refreshThreshold
  · by_cases he : (Refresh lib env s s.tokens.Refresh).err = none
    · exact Or.inr (hC h he)
    · exact Or.inl (hB h he)
  · exact Or.inl (hA (by omega))

/-! ## C13 and C15: the two constants -/

/-- C13 fails as stated: the poll period is the shorter of the two, by 20 minutes. -/
theorem pollTime_shorter_than_refreshThreshold :
    pollTime < refreshThreshold ∧ refreshThreshold - pollTime = 20 * Minute := by
  decide

/-- C13, amended. `refreshThreshold` is 30 minutes and `pollTime` is 10
minutes: the threshold is three poll periods, strictly longer than one. -/
theorem refreshThreshold_three_polls :
    refreshThreshold = 30 * Minute ∧ pollTime = 10 * Minute ∧
      refreshThreshold = 3 * pollTime ∧ pollTime < refreshThreshold := by
  decide

/-- C15. With `pollTime` 10 minutes and `refreshThreshold` 30 minutes, a
cycle run at clock reading `clock` that makes no `Refresh` call has a pair
whose `Expires` is more than 20 minutes after `clock + pollTime`: the pair
has not expired when the next check is due. -/
theorem pollCycle_skipped_not_expired (lib : Lib) (env : Env) (clock : Int) (s : AuthService)
    (h : ∀ tok, Event.Refresh tok ∉ (pollCycle lib env clock s).2) :
    pollTime = 10 * Minute ∧ refreshThreshold = 30 * Minute ∧
      clock + pollTime + 20 * Minute < s.tokens.Expires ∧
      clock + pollTime < s.tokens.Expires := by
  have hnot : ¬ s.tokens.Expires - clock ≤ refreshThreshold := by
    intro hd
    apply h s.tokens.Refresh
    cases hr : (Refresh lib env s s.tokens.Refresh).err with
    | none =>
      rw [pollCycle_refreshed lib env clock s hd hr]
      simp
    | some e =>
      rw [pollCycle_refresh_failed lib env clock s e hd hr]
      simp
  have h1 : pollTime = 10 * Minute := by decide
  have h2 : refreshThreshold = 30 * Minute := by decide
  have hm : Minute = 60000000000 := by decide
  refine ⟨h1, h2, ?_, ?_⟩ <;> rw [h2] at hnot <;> rw [h1] <;> omega

set_option maxRecDepth 100000 in
/-- C15 at a concrete input: at noon the stored pair expires in an hour; the
cycle only verifies the token, and the pair outlives the next check by more
than 20 minutes. -/
theorem pollCycle_skipped_not_expired_witness :
    pollCycle Sample.lib (Sample.env Sample.noon) Sample.noon Sample.loaded =
      (Sample.loaded, [Event.Verify "a1"]) ∧
    Sample.noon + pollTime + 20 * Minute < Sample.loaded.tokens.Expires :=
  ⟨by decide,
    (pollCycle_skipped_not_expired Sample.lib (Sample.env Sample.noon) Sample.noon Sample.loaded
      (by
        intro tok hmem
        rw [show pollCycle Sample.lib (Sample.env Sample.noon) Sample.noon Sample.loaded =
          (Sample.loaded, [Event.Verify "a1"]) by decide] at hmem
        simp at hmem)).2.2.1⟩

/-! ## C14: cancellation -/

/-- C14. When the wait of a cycle ends through `ctx.Done()`, as it does for
a context that is already cancelled when the wait begins, `PollRefresh`
returns with the service as it was and no call made. A cycle that has passed
its wait runs its check to the end whatever happens to the context
meanwhile: when the next wait ends through `ctx.Done()`, the outcome of the
loop is the outcome of that whole cycle. -/
theorem PollRefresh_cancellation (lib : Lib) (s : AuthService) (clock clock2 : Int)
    (env env2 : Env) (rest : List Tick) :
    PollRefresh lib ({ cancelled := true, clock := clock, env := env } :: rest) s = (s, []) ∧
    PollRefresh lib ({ cancelled := false, clock := clock, env := env } ::
      { cancelled := true, clock := clock2, env := env2 } :: rest) s =
        pollCycle lib env clock s := by
  constructor
  · simp [PollRefresh]
  · simp [PollRefresh]

/-! ## C12: the pair in memory and the pair in the file -/

theorem Register_tokens_unchanged (lib : Lib) (env : Env) (s : AuthService) (otp : String) :
    (Register lib env s otp).svc.tokens = s.tokens := by
  cases h : httpPost lib env (registerUri s.marketUri otp) with
  | none => rw [Register_of_no_response lib env s otp h]
  | some resp =>
    rw [Register_of_response lib env s otp resp h, processTokenResponse_tokens_unchanged]

/-- A `Register` that fails with anything but a write error or a short write
leaves the service as it was. -/
theorem Register_err_svc (lib : Lib) (env : Env) (s : AuthService) (otp : String)
    (h : (Register lib env s otp).err ≠ none)
    (hw : (Register lib env s otp).err ≠ some Err.writeTokens)
    (hsw : (Register lib env s otp).err ≠ some Err.shortWriteTokens) :
    (Register lib env s otp).svc = s := by
  cases hp : httpPost lib env (registerUri s.marketUri otp) with
  | none => rw [Register_of_no_response lib env s otp hp]
  | some resp =>
    rw [Register_of_response lib env s otp resp hp] at h hw hsw ⊢
    exact processTokenResponse_err_svc lib env s resp h hw hsw

/-- A `Refresh` that fails with anything but a write error or a short write
leaves the service as it was. -/
theorem Refresh_err_svc (lib : Lib) (env : Env) (s : AuthService) (tok : String)
    (h : (Refresh lib env s tok).err ≠ none)
    (hw : (Refresh lib env s tok).err ≠ some Err.writeTokens)
    (hsw : (Refresh lib env s tok).err ≠ some Err.shortWriteTokens) :
    (Refresh lib env s tok).svc = s := by
  rcases Refresh_cases lib env s tok with ⟨e, _, _, h1⟩ | ⟨resp, _, _, h1⟩
  · rw [h1]
  · rw [h1] at h hw hsw ⊢
    exact processTokenResponse_err_svc lib env s resp h hw hsw

/-- A successful `Refresh` through a handle at offset 0 leaves exactly the
encoding of the returned pair in the file. -/
theorem Refresh_file_at_start (lib : Lib) (env : Env) (s : AuthService) (tok : String)
    (h : (Refresh lib env s tok).err = none) (hpos : s.f.pos = 0) :
    lib.Marshal (Refresh lib env s tok).tokens = some (Refresh lib env s tok).svc.f.data := by
  rcases Refresh_cases lib env s tok with ⟨e, _, _, h1⟩ | ⟨resp, _, _, h1⟩
  · rw [h1] at h
    exact absurd h (by simp)
  · rw [h1] at h ⊢
    exact processTokenResponse_file_at_start lib env s resp h hpos

set_option maxRecDepth 100000 in
/-- C12 fails as stated: the service loaded from a token file holds the
stored pair; a `Refresh` called on its own succeeds, the file then stores
the new pair and the pair in memory is still the old one. -/
theorem Refresh_alone_leaves_memory_behind :
    stored Sample.lib Sample.loaded.f.data = some Sample.loaded.tokens ∧
    (Refresh Sample.lib (Sample.env Sample.halfPast) Sample.loaded "r1").err = none ∧
    stored Sample.lib
      (Refresh Sample.lib (Sample.env Sample.halfPast) Sample.loaded "r1").svc.f.data =
        some Sample.pair2 ∧
    (Refresh Sample.lib (Sample.env Sample.halfPast) Sample.loaded "r1").svc.tokens =
      Sample.pair1 :=
  ⟨by decide, by decide, by decide, by decide⟩

/-- A successful `Register` through a handle at offset 0 leaves exactly the
encoding of the returned pair in the file. -/
theorem Register_file_at_start (lib : Lib) (env : Env) (s : AuthService) (otp : String)
    (h : (Register lib env s otp).err = none) (hpos : s.f.pos = 0) :
    lib.Marshal (Register lib env s otp).tokens = some (Register lib env s otp).svc.f.data := by
  cases hp : httpPost lib env (registerUri s.marketUri otp) with
  | none =>
    rw [Register_of_no_response lib env s otp hp] at h
    exact absurd h (by simp)
  | some resp =>
    rw [Register_of_response lib env s otp resp hp] at h ⊢
    exact processTokenResponse_file_at_start lib env s resp h hpos

/-- When the file holds the encoding of `t`, which the library reads back as
`t`, and the pair in memory is `m`: the stored pair is the pair in memory
exactly when `t` is `m`. -/
theorem stored_eq_iff (lib : Lib) (contents : Bytes) (t m : Tokens)
    (hfile : lib.Marshal t = some contents)
    (hback : ∀ b, lib.Marshal t = some b → stored lib b = some t) :
    stored lib contents = some m ↔ t = m := by
  rw [hback contents hfile]
  constructor
  · intro h
    exact Option.some.inj h
  · intro h
    rw [h]

/-- C12, amended. Starting from a service whose pair in memory is the pair
stored in the token file.
(a) A `Register` or `Refresh` that fails with anything but a write error or a
short write, and a cycle in which no refresh is due or the refresh fails in
that way, leave file and pair as they were, so the two are again equal.
(b) A cycle whose refresh succeeds through a handle at offset 0 puts the
returned pair in memory and its encoding alone in the file, so the two are
again equal when the library reads back the pair it encoded.
(c) `Register` and `Refresh` called on their own never change the pair in
memory; when one succeeds through a handle at offset 0 the file holds exactly
the encoding of the returned pair, so, with the same reading back, the stored
pair is the pair in memory exactly when the returned pair is.
(d) When `Register` or `Refresh` fails with a write error or a short write
through a handle at offset 0, the file holds exactly the bytes of the new
encoding that the write accepted; a cycle whose refresh fails leaves the
service as that `Refresh` call left it. -/
theorem update_keeps_stored_pair (lib : Lib) (env : Env) (clock : Int) (s : AuthService)
    (otp refreshToken : String) (h : stored lib s.f.data = some s.tokens) :
    ((Register lib env s otp).err ≠ none →
      (Register lib env s otp).err ≠ some Err.writeTokens →
      (Register lib env s otp).err ≠ some Err.shortWriteTokens →
      stored lib (Register lib env s otp).svc.f.data = some (Register lib env s otp).svc.tokens) ∧
    ((Refresh lib env s refreshToken).err ≠ none →
      (Refresh lib env s refreshToken).err ≠ some Err.writeTokens →
      (Refresh lib env s refreshToken).err ≠ some Err.shortWriteTokens →
      stored lib (Refresh lib env s refreshToken).svc.f.data =
        some (Refresh lib env s refreshToken).svc.tokens) ∧
    (refreshThreshold < s.tokens.Expires - clock →
      stored lib (pollCycle lib env clock s).1.f.data = some (pollCycle lib env clock s).1.tokens) ∧
    (s.tokens.Expires - clock ≤ refreshThreshold →
      (Refresh lib env s s.tokens.Refresh).err ≠ none →
      (Refresh lib env s s.tokens.Refresh).err ≠ some Err.writeTokens →
      (Refresh lib env s s.tokens.Refresh).err ≠ some Err.shortWriteTokens →
      stored lib (pollCycle lib env clock s).1.f.data = some (pollCycle lib env clock s).1.tokens) ∧
    (s.tokens.Expires - clock ≤ refreshThreshold →
      (Refresh lib env s s.tokens.Refresh).err = none → s.f.pos = 0 →
      lib.Marshal (pollCycle lib env clock s).1.tokens =
          some (pollCycle lib env clock s).1.f.data ∧
        ((∀ b, lib.Marshal (Refresh lib env s s.tokens.Refresh).tokens = some b →
            stored lib b = some (Refresh lib env s s.tokens.Refresh).tokens) →
          stored lib (pollCycle lib env clock s).1.f.data =
            some (pollCycle lib env clock s).1.tokens)) ∧
    (Register lib env s otp).svc.tokens = s.tokens ∧
    (Refresh lib env s refreshToken).svc.tokens = s.tokens ∧
    ((Register lib env s otp).err = none → s.f.pos = 0 →
      lib.Marshal (Register lib env s otp).tokens = some (Register lib env s otp).svc.f.data ∧
        ((∀ b, lib.Marshal (Register lib env s otp).tokens = some b →
            stored lib b = some (Register lib env s otp).tokens) →
          (stored lib (Register lib env s otp).svc.f.data =
              some (Register lib env s otp).svc.tokens ↔
            (Register lib env s otp).tokens = s.tokens))) ∧
    ((Refresh lib env s refreshToken).err = none → s.f.pos = 0 →
      lib.Marshal (Refresh lib env s refreshToken).tokens =
          some (Refresh lib env s refreshToken).svc.f.data ∧
        ((∀ b, lib.Marshal (Refresh lib env s refreshToken).tokens = some b →
            stored lib b = some (Refresh lib env s refreshToken).tokens) →
          (stored lib (Refresh lib env s refreshToken).svc.f.data =
              some (Refresh lib env s refreshToken).svc.tokens ↔
            (Refresh lib env s refreshToken).tokens = s.tokens))) ∧
    ((Register lib env s otp).err = some Err.writeTokens ∨
        (Register lib env s otp).err = some Err.shortWriteTokens →
      s.f.pos = 0 →
      ∃ resp body tr b, httpPost lib env (registerUri s.marketUri otp) = some resp ∧
        resp.Body = some body ∧ lib.UnmarshalResponse body = some tr ∧
        lib.Marshal (persisted env.now tr) = some b ∧
        (Register lib env s otp).svc.f.data = b.take env.written) ∧
    ((Refresh lib env s refreshToken).err = some Err.writeTokens ∨
        (Refresh lib env s refreshToken).err = some Err.shortWriteTokens →
      s.f.pos = 0 →
      ∃ resp body tr b, env.send (refreshRequest s refreshToken) = some resp ∧
        resp.Body = some body ∧ lib.UnmarshalResponse body = some tr ∧
        lib.Marshal (persisted env.now tr) = some b ∧
        (Refresh lib env s refreshToken).svc.f.data = b.take env.written) ∧
    (s.tokens.Expires - clock ≤ refreshThreshold →
      (Refresh lib env s s.tokens.Refresh).err ≠ none →
      (pollCycle lib env clock s).1 = (Refresh lib env s s.tokens.Refresh).svc) := by
  refine ⟨?_, ?_, ?_, ?_, ?_, Register_tokens_unchanged lib env s otp,
    Refresh_tokens_unchanged lib env s refreshToken, ?_, ?_, ?_, ?_, ?_⟩
  · intro h1 h2 h3
    rw [Register_err_svc lib env s otp h1 h2 h3]
    exact h
  · intro h1 h2 h3
    rw [Refresh_err_svc lib env s refreshToken h1 h2 h3]
    exact h
  · intro hd
    rw [pollCycle_not_due lib env clock s hd]
    exact h
  · intro hd h1 h2 h3
    cases hr : (Refresh lib env s s.tokens.Refresh).err with
    | none => exact absurd hr h1
    | some e =>
      rw [pollCycle_refresh_failed lib env clock s e hd hr]
      dsimp only
      rw [Refresh_err_svc lib env s s.tokens.Refresh h1 h2 h3]
      exact h
  · intro hd he hpos
    have hfile := Refresh_file_at_start lib env s s.tokens.Refresh he hpos
    rw [pollCycle_refreshed lib env clock s hd he]
    dsimp only
    refine ⟨hfile, fun hback => ?_⟩
    exact hback _ hfile
  · intro he hpos
    have hfile := Register_file_at_start lib env s otp he hpos
    refine ⟨hfile, fun hback => ?_⟩
    rw [Register_tokens_unchanged lib env s otp]
    exact stored_eq_iff lib _ _ _ hfile hback
  · intro he hpos
    have hfile := Refresh_file_at_start lib env s refreshToken he hpos
    refine ⟨hfile, fun hback => ?_⟩
    rw [Refresh_tokens_unchanged lib env s refreshToken]
    exact stored_eq_iff lib _ _ _ hfile hback
  · intro hw hpos
    obtain ⟨resp, body, tr, b, hr, hB, hU, hM, hd⟩ := Register_write_failed lib env s otp hw
    rw [hpos, writeAt_zero] at hd
    exact ⟨resp, body, tr, b, hr, hB, hU, hM, hd⟩
  · intro hw hpos
    obtain ⟨resp, body, tr, b, hr, hB, hU, hM, hd⟩ :=
      Refresh_write_failed lib env s refreshToken hw
    rw [hpos, writeAt_zero] at hd
    exact ⟨resp, body, tr, b, hr, hB, hU, hM, hd⟩
  · intro hd he
    cases hr : (Refresh lib env s s.tokens.Refresh).err with
    | none => exact absurd hr he
    | some e => rw [pollCycle_refresh_failed lib env clock s e hd hr]

set_option maxRecDepth 100000 in
/-- C12, amended, at concrete inputs. At a quarter to one the service loaded
from the token file refreshes its pair in a cycle: the new pair is in memory
and is the pair stored in the file. At half past noon `Refresh` is called on
its own on the same service: the file holds the encoding of the new pair,
and the stored pair is the pair in memory exactly when the new pair is the
old one. -/
theorem update_keeps_stored_pair_witness :
    (pollCycle Sample.lib (Sample.env Sample.quarterTo) Sample.quarterTo Sample.loaded).1.tokens =
      { Access := "a2", Refresh := "r2", Expires := Sample.quarterTo + 3600 * Second } ∧
    stored Sample.lib
      (pollCycle Sample.lib (Sample.env Sample.quarterTo) Sample.quarterTo Sample.loaded).1.f.data =
        some (pollCycle Sample.lib (Sample.env Sample.quarterTo) Sample.quarterTo
          Sample.loaded).1.tokens ∧
    (Refresh Sample.lib (Sample.env Sample.halfPast) Sample.loaded "r1").svc.f.data =
      Sample.file2 ∧
    (stored Sample.lib
        (Refresh Sample.lib (Sample.env Sample.halfPast) Sample.loaded "r1").svc.f.data =
          some (Refresh Sample.lib (Sample.env Sample.halfPast) Sample.loaded "r1").svc.tokens ↔
      (Refresh Sample.lib (Sample.env Sample.halfPast) Sample.loaded "r1").tokens =
        Sample.loaded.tokens) :=
  ⟨by decide,
    ((update_keeps_stored_pair Sample.lib (Sample.env Sample.quarterTo) Sample.quarterTo
      Sample.loaded "123456" "r1" (by decide)).2.2.2.2.1 (by decide) (by decide) rfl).2
      (by
        have key : ∀ b ∈ Sample.lib.Marshal
            (Refresh Sample.lib (Sample.env Sample.quarterTo) Sample.loaded
              Sample.loaded.tokens.Refresh).tokens,
            stored Sample.lib b =
              some (Refresh Sample.lib (Sample.env Sample.quarterTo) Sample.loaded
                Sample.loaded.tokens.Refresh).tokens := by
          decide
        intro b hb
        exact key b hb),
    by decide,
    ((update_keeps_stored_pair Sample.lib (Sample.env Sample.halfPast) Sample.halfPast
      Sample.loaded "123456" "r1" (by decide)).2.2.2.2.2.2.2.2.1 (by decide) rfl).2
      (by
        have key : ∀ b ∈ Sample.lib.Marshal
            (Refresh Sample.lib (Sample.env Sample.halfPast) Sample.loaded "r1").tokens,
            stored Sample.lib b =
              some (Refresh Sample.lib (Sample.env Sample.halfPast) Sample.loaded "r1").tokens := by
          decide
        intro b hb
        exact key b hb)⟩

end MarketAuth
